import Mathlib

/-!
# LlamaCalc: access control and arithmetic engine

A shallow embedding of `pkg/auth/auth.go` (the role constants, the static
access policy, the certificate role mapper, the credential resolution with its
token fallback and the unary interceptor that wraps the downstream handler),
of the arithmetic engine `pkg/calc/calculator.go`, of the handlers of
`pkg/server/grpc.go`, of the service of `pkg/calculator/calculator.go`, of the
client method Divide of `api/client/go/client.go` and of the metrics
interceptor of `pkg/monitoring/monitoring.go`.

Go values are modelled as follows.

* `error` is `Option GoError`, `none` being `nil`.
* `interface{}` responses are `Option Resp`, `none` being `nil`.
* `map[string][]string` is an association list; indexing a missing key gives
  the zero value, the empty slice.
* Calls made to collaborators (the token verifier and the downstream handler)
  are recorded, in order, in the `calls` field of each result.
* `float64` is the type `Float64` of binary64 numbers; the calculator code is
  written over a signature of numeric operations, `Arith`, and read with
  binary64 arithmetic (`ieee`).
* `time.Since(start)` is a parameter, `elapsed`, of the engine operations.
-/

namespace LlamaCalc

/-! ## Go and gRPC runtime values -/

/-- The gRPC status codes of `google.golang.org/grpc/codes`. -/
inductive Code
  | OK
  | Canceled
  | Unknown
  | InvalidArgument
  | DeadlineExceeded
  | NotFound
  | AlreadyExists
  | PermissionDenied
  | ResourceExhausted
  | FailedPrecondition
  | Aborted
  | OutOfRange
  | Unimplemented
  | Internal
  | Unavailable
  | DataLoss
  | Unauthenticated
deriving DecidableEq

/-- A Go `error` value: either a gRPC status error built by `status.Errorf`
or a plain error built by `errors.New`. -/
inductive GoError
  | status (code : Code) (msg : String)
  | plain (msg : String)
deriving DecidableEq

/-- A Go `map[string][]string`. -/
abbrev StringSliceMap := List (String × List String)

/-- Map indexing `m[k]`: the stored slice, or the zero value (an empty slice)
when the key is absent. -/
def StringSliceMap.index (m : StringSliceMap) (k : String) : List String :=
  (m.lookup k).getD []

namespace auth

/-! ## Data model (auth.go, lines 19-45) -/

/-- A user role for RBAC: `type Role string`. -/
abbrev Role := String

/-- Constant `RoleAdmin`. -/
def RoleAdmin : Role := "ADMIN"

/-- Constant `RoleUser`. -/
def RoleUser : Role := "USER"

/-- Constant `RoleGuest`. -/
def RoleGuest : Role := "GUEST"

/-- Constant `RoleDenied`. -/
def RoleDenied : Role := "DENIED"

/-- The claims carried by a verified token; only the `Role` field is read. -/
structure UserClaims where
  Role : String
deriving DecidableEq

/-- The token verifier. Its declaration is not part of the sources at hand, so
its `Verify` method is a parameter: any function from the access token to
either claims or the text of an error. -/
structure JWTManager where
  Verify : String → Except String UserClaims

/-- The interceptor: `struct AuthInterceptor`. -/
structure AuthInterceptor where
  jwtManager : JWTManager
  accessibleRoles : StringSliceMap

/-- The subject name of a certificate (`pkix.Name`), reduced to the field read. -/
structure Name where
  OrganizationalUnit : List String
deriving DecidableEq

/-- An X.509 certificate, reduced to its subject. -/
structure Certificate where
  Subject : Name
deriving DecidableEq

/-- The TLS connection state, reduced to the verified chains. -/
structure ConnectionState where
  VerifiedChains : List (List Certificate)
deriving DecidableEq

/-- The dynamic type of `peer.AuthInfo`: a `credentials.TLSInfo`, or anything
else (another implementation, or `nil`), for which the type assertion fails. -/
inductive AuthInfo
  | TLSInfo (State : ConnectionState)
  | other
deriving DecidableEq

/-- The peer attached to a call: `peer.Peer`. -/
structure Peer where
  AuthInfo : AuthInfo
deriving DecidableEq

/-- The part of `context.Context` the interceptor reads: the peer
(`peer.FromContext`) and the incoming metadata (`metadata.FromIncomingContext`),
each possibly absent. -/
structure Context where
  peer : Option Peer
  md : Option StringSliceMap
deriving DecidableEq

/-- The call description: `grpc.UnaryServerInfo`, reduced to the method name. -/
structure UnaryServerInfo where
  FullMethod : String
deriving DecidableEq

/-- A call made to a collaborator while a request is processed. -/
inductive Call (Req : Type)
  | Verify (accessToken : String)
  | handler (ctx : Context) (req : Req)
deriving DecidableEq

/-! ## Operations -/

/-- The access policy built by `NewAuthInterceptor` (lines 48-60). -/
def NewAuthInterceptor (jwtManager : JWTManager) : AuthInterceptor :=
  { jwtManager := jwtManager
    accessibleRoles :=
      [ ("/calculator.Calculator/Add", [RoleAdmin, RoleUser, RoleGuest]),
        ("/calculator.Calculator/Subtract", [RoleAdmin, RoleUser, RoleGuest]),
        ("/calculator.Calculator/Multiply", [RoleAdmin, RoleUser]),
        ("/calculator.Calculator/Divide", [RoleAdmin]) ] }

/-- The range loop of `isAccessible` (lines 125-131): `true` at the first
element equal to the role, `false` when the slice is exhausted. -/
def isAccessibleLoop (role : Role) : List String → Bool
  | [] => false
  | r :: rest => if r = role then true else isAccessibleLoop role rest

/-- Method `isAccessible` (lines 120-132). -/
def AuthInterceptor.isAccessible (interceptor : AuthInterceptor) (method : String)
    (role : Role) : Bool :=
  if (interceptor.accessibleRoles.index method).length = 0 then
    true
  else
    isAccessibleLoop role (interceptor.accessibleRoles.index method)

/-- One iteration of the loop over the organizational units (lines 158-163). -/
def ouStep (role : Role) (ou : String) : Role :=
  if ou = "Admin" then RoleAdmin
  else if ou = "Guest" then RoleGuest
  else role

/-- Function `getRoleFromCert` (lines 135-167): the role and the error. -/
def getRoleFromCert (ctx : Context) : Role × Option GoError :=
  match ctx.peer with
  | none => (RoleDenied, some (GoError.plain "no peer found"))
  | some p =>
    match p.AuthInfo with
    | AuthInfo.other => (RoleDenied, some (GoError.plain "not a TLS connection"))
    | AuthInfo.TLSInfo mtls =>
      match mtls.VerifiedChains with
      | [] => (RoleDenied, some (GoError.plain "no verified client certificate"))
      | [] :: _ => (RoleDenied, some (GoError.plain "no verified client certificate"))
      | (clientCert :: _) :: _ =>
        (clientCert.Subject.OrganizationalUnit.foldl ouStep RoleUser, none)

/-- The outcome of `authorize`: the two returned values and the calls made. -/
structure AuthorizeResult (Req : Type) where
  role : Role
  err : Option GoError
  calls : List (Call Req)
deriving DecidableEq

/-- Method `authorize` (lines 92-117). The method name is not read. -/
def AuthInterceptor.authorize {Req : Type} (interceptor : AuthInterceptor) (ctx : Context)
    (_method : String) : AuthorizeResult Req :=
  match getRoleFromCert ctx with
  | (role, none) => { role := role, err := none, calls := [] }
  | (_, some _) =>
    match ctx.md with
    | none =>
      { role := RoleDenied
        err := some (GoError.status Code.Unauthenticated "metadata is not provided")
        calls := [] }
    | some md =>
      match md.index "authorization" with
      | [] =>
        { role := RoleDenied
          err := some (GoError.status Code.Unauthenticated "authorization token is not provided")
          calls := [] }
      | accessToken :: _ =>
        match interceptor.jwtManager.Verify accessToken with
        | Except.error e =>
          { role := RoleDenied
            err := some (GoError.status Code.Unauthenticated ("access token is invalid: " ++ e))
            calls := [Call.Verify accessToken] }
        | Except.ok claims =>
          { role := claims.Role, err := none, calls := [Call.Verify accessToken] }

/-- The outcome of the interceptor: the response, the error and the calls made. -/
structure UnaryResult (Req Resp : Type) where
  resp : Option Resp
  err : Option GoError
  calls : List (Call Req)
deriving DecidableEq

/-- The error returned at both permission checks of `Unary`. -/
def permissionDenied : GoError :=
  GoError.status Code.PermissionDenied "no permission to access this RPC"

/-- The interceptor function returned by `Unary` (lines 63-89). -/
def AuthInterceptor.Unary {Req Resp : Type} (interceptor : AuthInterceptor) (ctx : Context)
    (req : Req) (info : UnaryServerInfo)
    (handler : Context → Req → Option Resp × Option GoError) : UnaryResult Req Resp :=
  if !interceptor.isAccessible info.FullMethod RoleGuest then
    { resp := none, err := some permissionDenied, calls := [] }
  else
    let a : AuthorizeResult Req := interceptor.authorize ctx info.FullMethod
    match a.err with
    | some err => { resp := none, err := some err, calls := a.calls }
    | none =>
      if !interceptor.isAccessible info.FullMethod a.role then
        { resp := none, err := some permissionDenied, calls := a.calls }
      else
        let r := handler ctx req
        { resp := r.1, err := r.2, calls := a.calls ++ [Call.handler ctx req] }

/-- The number of handler invocations recorded in a list of calls. -/
def handlerCalls {Req : Type} : List (Call Req) → Nat
  | [] => 0
  | Call.handler _ _ :: cs => handlerCalls cs + 1
  | Call.Verify _ :: cs => handlerCalls cs

/-- The number of token verifier invocations recorded in a list of calls. -/
def verifyCalls {Req : Type} : List (Call Req) → Nat
  | [] => 0
  | Call.handler _ _ :: cs => verifyCalls cs
  | Call.Verify _ :: cs => verifyCalls cs + 1

/-- The conditions under which the interceptor lets a call through: the Guest
pre-check passes, credential resolution succeeds, and the resolved role has
access to the method. -/
def Admitted (Req : Type) (interceptor : AuthInterceptor) (ctx : Context)
    (method : String) : Prop :=
  interceptor.isAccessible method RoleGuest = true ∧
  (interceptor.authorize ctx method : AuthorizeResult Req).err = none ∧
  interceptor.isAccessible method
    (interceptor.authorize ctx method : AuthorizeResult Req).role = true

/-! ## Sample inputs -/

/-- A token verifier that accepts the token `"good"` with role claim ADMIN and
rejects every other token as expired. -/
def sampleJWTManager : JWTManager :=
  { Verify := fun accessToken =>
      if accessToken = "good" then Except.ok { Role := "ADMIN" }
      else Except.error "token is expired" }

/-- A call over a TLS session whose single verified chain holds one
certificate with the given organizational units. -/
def certContext (units : List String) (md : Option StringSliceMap) : Context :=
  { peer := some (Peer.mk (AuthInfo.TLSInfo
      (ConnectionState.mk [[Certificate.mk (Name.mk units)]])))
    md := md }

/-- A call without peer information whose metadata carries one authorization
value. -/
def tokenContext (accessToken : String) : Context :=
  { peer := none, md := some [("authorization", [accessToken])] }

/-- A token verifier that accepts every token and yields claims whose role is
the string `"DENIED"`. -/
def deniedJWTManager : JWTManager :=
  { Verify := fun _ => Except.ok { Role := "DENIED" } }

/-- A call over a connection without TLS whose metadata is empty: no client
certificate and no authorization token. -/
def anonymousContext : Context :=
  { peer := some (Peer.mk AuthInfo.other), md := some [] }

/-- A handler on natural numbers that answers with the successor. -/
def sampleHandler : Context → Nat → Option Nat × Option GoError :=
  fun _ n => (some (n + 1), none)

end auth

/-! ## IEEE 754 binary64 numbers

Go `float64` values with the arithmetic of the language: every operation
computes the exact result and rounds it to the nearest representable number,
ties to even, overflowing to an infinity. -/

/-- A `float64`: a NaN, an infinity, or the finite number
`(-1)^negative * mant * 2^exp`. Representable numbers have `mant < 2^53` and
`-1074 ≤ exp ≤ 971`. -/
inductive Float64
  | NaN
  | Inf (negative : Bool)
  | Finite (negative : Bool) (mant : Nat) (exp : Int)
deriving DecidableEq

namespace Float64

/-- The power `2^e` for `0 ≤ e`, and `1` for negative `e`. -/
def pow2 (e : Int) : Nat := 2 ^ e.toNat

/-- The binary logarithm of `n`, rounded down, computed by halving at most
`fuel` times. -/
def log2Fuel : Nat → Nat → Nat
  | 0, _ => 0
  | fuel + 1, n => if 2 ≤ n then log2Fuel fuel (n / 2) + 1 else 0

/-- The binary logarithm of `n`, rounded down (`0` for `n = 0`). -/
def log2 (n : Nat) : Nat := log2Fuel n n

/-- The `float64` nearest to `num / den` (ties to even), with the given sign;
an infinity when the rounded magnitude exceeds the largest finite number. -/
def roundNearestEven (negative : Bool) (num den : Nat) : Float64 :=
  if num = 0 then Finite negative 0 (-1074)
  else
    let k : Int := (log2 num : Int) - (log2 den : Int)
    let lg : Int := if den * pow2 k ≤ num * pow2 (-k) then k else k - 1
    let e : Int := max (lg - 52) (-1074)
    let n : Nat := num * pow2 (-e)
    let d : Nat := den * pow2 e
    let q : Nat := n / d
    let r : Nat := n % d
    let m : Nat := if d < 2 * r ∨ (2 * r = d ∧ q % 2 = 1) then q + 1 else q
    if m = 2 ^ 53 then
      if 971 < e + 1 then Inf negative else Finite negative (2 ^ 52) (e + 1)
    else if 971 < e then Inf negative
    else Finite negative m e

/-- The signed integer `(-1)^negative * mant * 2^(exp - base)`, for
`base ≤ exp`. -/
def scaled (negative : Bool) (mant : Nat) (exp base : Int) : Int :=
  if negative then -((mant * pow2 (exp - base) : Nat) : Int)
  else ((mant * pow2 (exp - base) : Nat) : Int)

/-- Predicate `math.IsNaN`. -/
def IsNaN : Float64 → Bool
  | NaN => true
  | _ => false

/-- Predicate `math.IsInf(f, 0)`: either infinity. -/
def IsInf : Float64 → Bool
  | Inf _ => true
  | _ => false

/-- Unary minus. -/
def neg : Float64 → Float64
  | NaN => NaN
  | Inf s => Inf (!s)
  | Finite s m e => Finite (!s) m e

/-- Function `math.Abs`. -/
def Abs : Float64 → Float64
  | NaN => NaN
  | Inf _ => Inf false
  | Finite _ m e => Finite false m e

/-- Addition `a + b`. -/
def add : Float64 → Float64 → Float64
  | NaN, _ => NaN
  | _, NaN => NaN
  | Inf s, Inf t => if s = t then Inf s else NaN
  | Inf s, Finite _ _ _ => Inf s
  | Finite _ _ _, Inf t => Inf t
  | Finite s m e, Finite t n f =>
    let z : Int := scaled s m e (min e f) + scaled t n f (min e f)
    if z = 0 then Finite (s && t) 0 (-1074)
    else roundNearestEven (decide (z < 0)) (z.natAbs * pow2 (min e f)) (pow2 (-(min e f)))

/-- Subtraction `a - b`. -/
def sub (a b : Float64) : Float64 := add a (neg b)

/-- Multiplication `a * b`. -/
def mul : Float64 → Float64 → Float64
  | NaN, _ => NaN
  | _, NaN => NaN
  | Inf s, Inf t => Inf (xor s t)
  | Inf s, Finite t n _ => if n = 0 then NaN else Inf (xor s t)
  | Finite s m _, Inf t => if m = 0 then NaN else Inf (xor s t)
  | Finite s m e, Finite t n f =>
    roundNearestEven (xor s t) (m * n * pow2 (e + f)) (pow2 (-(e + f)))

/-- Division `a / b`. -/
def div : Float64 → Float64 → Float64
  | NaN, _ => NaN
  | _, NaN => NaN
  | Inf _, Inf _ => NaN
  | Inf s, Finite t _ _ => Inf (xor s t)
  | Finite s _ _, Inf t => Finite (xor s t) 0 (-1074)
  | Finite s m e, Finite t n f =>
    if n = 0 then (if m = 0 then NaN else Inf (xor s t))
    else roundNearestEven (xor s t) (m * pow2 (e - f)) (n * pow2 (f - e))

/-- Comparison `a < b`; false when either side is a NaN. -/
def lt : Float64 → Float64 → Bool
  | NaN, _ => false
  | _, NaN => false
  | Inf s, Inf t => s && !t
  | Inf s, Finite _ _ _ => s
  | Finite _ _ _, Inf t => !t
  | Finite s m e, Finite t n f =>
    decide (scaled s m e (min e f) < scaled t n f (min e f))

/-- Comparison `a == b`; false when either side is a NaN, true for the two
zeros. -/
def eq : Float64 → Float64 → Bool
  | NaN, _ => false
  | _, NaN => false
  | Inf s, Inf t => s == t
  | Inf _, Finite _ _ _ => false
  | Finite _ _ _, Inf _ => false
  | Finite s m e, Finite t n f =>
    decide (scaled s m e (min e f) = scaled t n f (min e f))

/-- Function `math.Round`: the nearest integer, halves away from zero; NaN and
the infinities are returned as they are, and the sign of a zero is kept. -/
def Round : Float64 → Float64
  | NaN => NaN
  | Inf s => Inf s
  | Finite s m e =>
    if 0 ≤ e then roundNearestEven s (m * pow2 e) 1
    else roundNearestEven s ((m + pow2 (-e - 1)) / pow2 (-e)) 1

/-- The value of a decimal literal `1e<i>`. -/
def literalPow10 (i : Nat) : Float64 := roundNearestEven false (10 ^ i) 1

/-- The value of a decimal literal `1e-<i>`. -/
def literalNegPow10 (i : Nat) : Float64 := roundNearestEven false 1 (10 ^ i)

/-- Function `math.Pow10` of the Go standard library: a product or a quotient
of two table entries, the tables holding `1e0 .. 1e31` and the powers
`1e±32j`. -/
def Pow10 (n : Int) : Float64 :=
  if 0 ≤ n ∧ n ≤ 308 then
    mul (literalPow10 (32 * (n.toNat / 32))) (literalPow10 (n.toNat % 32))
  else if -323 ≤ n ∧ n ≤ 0 then
    div (literalNegPow10 (32 * ((-n).toNat / 32))) (literalPow10 ((-n).toNat % 32))
  else if 0 < n then Inf false
  else Finite false 0 (-1074)

/-- The positive zero. -/
def zero : Float64 := Finite false 0 (-1074)

/-- The number one. -/
def one : Float64 := Finite false (2 ^ 52) (-52)

/-- Constant `math.MaxFloat64`. -/
def MaxFloat64 : Float64 := Finite false (2 ^ 53 - 1) 971

/-- The `float64` value of a natural number literal. -/
def ofNat (n : Nat) : Float64 := roundNearestEven false n 1

end Float64

/-- The numeric type of the calculator code together with the operations the
code applies to it. The code is embedded over this signature and read with
binary64 arithmetic. -/
structure Arith (F : Type) where
  zero : F
  one : F
  MaxFloat64 : F
  add : F → F → F
  sub : F → F → F
  mul : F → F → F
  div : F → F → F
  neg : F → F
  Abs : F → F
  lt : F → F → Bool
  eq : F → F → Bool
  IsNaN : F → Bool
  IsInf : F → Bool
  Round : F → F
  Pow10 : Int → F

/-- The binary64 reading: Go semantics of `float64`. -/
def ieee : Arith Float64 :=
  { zero := Float64.zero
    one := Float64.one
    MaxFloat64 := Float64.MaxFloat64
    add := Float64.add
    sub := Float64.sub
    mul := Float64.mul
    div := Float64.div
    neg := Float64.neg
    Abs := Float64.Abs
    lt := Float64.lt
    eq := Float64.eq
    IsNaN := Float64.IsNaN
    IsInf := Float64.IsInf
    Round := Float64.Round
    Pow10 := Float64.Pow10 }

/-- The name of a status code: `codes.Code.String`. -/
def Code.String : Code → String
  | Code.OK => "OK"
  | Code.Canceled => "Canceled"
  | Code.Unknown => "Unknown"
  | Code.InvalidArgument => "InvalidArgument"
  | Code.DeadlineExceeded => "DeadlineExceeded"
  | Code.NotFound => "NotFound"
  | Code.AlreadyExists => "AlreadyExists"
  | Code.PermissionDenied => "PermissionDenied"
  | Code.ResourceExhausted => "ResourceExhausted"
  | Code.FailedPrecondition => "FailedPrecondition"
  | Code.Aborted => "Aborted"
  | Code.OutOfRange => "OutOfRange"
  | Code.Unimplemented => "Unimplemented"
  | Code.Internal => "Internal"
  | Code.Unavailable => "Unavailable"
  | Code.DataLoss => "DataLoss"
  | Code.Unauthenticated => "Unauthenticated"

/-- The text of an error: method `Error()`. -/
def GoError.Error : GoError → String
  | GoError.plain msg => msg
  | GoError.status code msg => "rpc error: code = " ++ code.String ++ " desc = " ++ msg

/-- The part of `context.Context` the RPC handlers read: the value of
`ctx.Err()`, `none` for a live context. -/
structure CallContext where
  Err : Option GoError
deriving DecidableEq

/-! ## The arithmetic engine (pkg/calc/calculator.go) -/

namespace Calc

/-- Error `ErrDivideByZero`. -/
def ErrDivideByZero : GoError := GoError.plain "division by zero"

/-- Error `ErrOverflow`. -/
def ErrOverflow : GoError := GoError.plain "numeric overflow"

/-- Error `ErrUnderflow`. -/
def ErrUnderflow : GoError := GoError.plain "numeric underflow"

/-- Error `ErrInvalidInput`. -/
def ErrInvalidInput : GoError := GoError.plain "invalid input"

/-- The engine configuration: `struct Calculator`. -/
structure Calculator where
  MaxPrecision : Int
  MaxDecimalPlaces : Int
  CheckOverflow : Bool
deriving DecidableEq

/-- The structured outcome: `struct CalculationResult`. The duration is in
nanoseconds. -/
structure CalculationResult (F : Type) where
  Value : F
  Duration : Int
  Operation : String
  Error : Option GoError
deriving DecidableEq

/-- Function `NewCalculator` (lines 35-41). -/
def NewCalculator (maxPrecision maxDecimalPlaces : Int) (checkOverflow : Bool) : Calculator :=
  { MaxPrecision := maxPrecision
    MaxDecimalPlaces := maxDecimalPlaces
    CheckOverflow := checkOverflow }

/-- Method `validateInput` (lines 222-224). -/
def Calculator.validateInput {F : Type} (A : Arith F) (_c : Calculator) (value : F) : Bool :=
  !A.IsNaN value && !A.IsInf value

/-- Method `roundToPrecision` (lines 227-230). -/
def Calculator.roundToPrecision {F : Type} (A : Arith F) (c : Calculator) (value : F) : F :=
  let multiplier := A.Pow10 c.MaxDecimalPlaces
  A.div (A.Round (A.mul value multiplier)) multiplier

/-- The part shared by the four operations after the raw result is computed:
the overflow check and the rounding (lines 60-82, 102-124, 144-166, 187-209).
`elapsed` is the value of `time.Since(start)` at the return. -/
def Calculator.finish {F : Type} (A : Arith F) (c : Calculator) (elapsed : Int)
    (operation : String) (result : F) : CalculationResult F :=
  if c.CheckOverflow && !c.validateInput A result then
    { Value := A.zero
      Duration := elapsed
      Operation := operation
      Error := some (if A.lt A.zero result then ErrOverflow else ErrUnderflow) }
  else
    { Value := c.roundToPrecision A result
      Duration := elapsed
      Operation := operation
      Error := none }

/-- Method `Add` (lines 44-83). The context is not read. -/
def Calculator.Add {F Ctx : Type} (A : Arith F) (c : Calculator) (elapsed : Int) (_ctx : Ctx)
    (a b : F) : CalculationResult F :=
  if !c.validateInput A a || !c.validateInput A b then
    { Value := A.zero, Duration := elapsed, Operation := "Add", Error := some ErrInvalidInput }
  else
    c.finish A elapsed "Add" (A.add a b)

/-- Method `Subtract` (lines 86-125). The context is not read. -/
def Calculator.Subtract {F Ctx : Type} (A : Arith F) (c : Calculator) (elapsed : Int)
    (_ctx : Ctx) (a b : F) : CalculationResult F :=
  if !c.validateInput A a || !c.validateInput A b then
    { Value := A.zero, Duration := elapsed, Operation := "Subtract"
      Error := some ErrInvalidInput }
  else
    c.finish A elapsed "Subtract" (A.sub a b)

/-- Method `Multiply` (lines 128-167). The context is not read. -/
def Calculator.Multiply {F Ctx : Type} (A : Arith F) (c : Calculator) (elapsed : Int)
    (_ctx : Ctx) (a b : F) : CalculationResult F :=
  if !c.validateInput A a || !c.validateInput A b then
    { Value := A.zero, Duration := elapsed, Operation := "Multiply"
      Error := some ErrInvalidInput }
  else
    c.finish A elapsed "Multiply" (A.mul a b)

/-- Method `Divide` (lines 170-219). The context is not read. -/
def Calculator.Divide {F Ctx : Type} (A : Arith F) (c : Calculator) (elapsed : Int)
    (_ctx : Ctx) (a b : F) : CalculationResult F :=
  if !c.validateInput A a || !c.validateInput A b then
    { Value := A.zero, Duration := elapsed, Operation := "Divide"
      Error := some ErrInvalidInput }
  else if A.eq b A.zero then
    { Value := A.zero, Duration := elapsed, Operation := "Divide"
      Error := some ErrDivideByZero }
  else
    c.finish A elapsed "Divide" (A.div a b)

end Calc

/-! ## Messages (pkg/proto) -/

namespace proto

/-- Modelled from the spec: the request message `CalculationRequest`, whose
generated declaration is not among the sources; the two operands. -/
structure CalculationRequest (F : Type) where
  A : F
  B : F
deriving DecidableEq

/-- Modelled from the spec: the response envelope `CalculationResponse`, whose
generated declaration is not among the sources; the result, the numeric status
code, the error message, the operation tag, and the duration field set by the
server. Fields left out of a literal hold their zero value. -/
structure CalculationResponse (F : Type) where
  Result : F
  StatusCode : Int
  ErrorMessage : String
  Operation : String
  DurationNs : Int
deriving DecidableEq

end proto

/-! ## The request dispatcher (pkg/server/grpc.go) -/

namespace server

/-- The server, reduced to the engine it dispatches to: `struct GRPCServer`. -/
structure GRPCServer where
  calculator : Calc.Calculator
deriving DecidableEq

/-- The conversion of an engine result to a response, the same in the four
handlers (lines 172-186, 192-206, 212-226, 232-246). -/
def toResponse {F : Type} (result : Calc.CalculationResult F) :
    Option (proto.CalculationResponse F) × Option GoError :=
  let response : proto.CalculationResponse F :=
    { Result := result.Value
      StatusCode := 200
      ErrorMessage := ""
      Operation := result.Operation
      DurationNs := result.Duration }
  match result.Error with
  | some err => (some { response with StatusCode := 400, ErrorMessage := err.Error }, none)
  | none => (some response, none)

/-- Method `Add` (lines 169-187). -/
def GRPCServer.Add {F Ctx : Type} (A : Arith F) (s : GRPCServer) (elapsed : Int) (ctx : Ctx)
    (req : proto.CalculationRequest F) : Option (proto.CalculationResponse F) × Option GoError :=
  toResponse (s.calculator.Add A elapsed ctx req.A req.B)

/-- Method `Subtract` (lines 189-207). -/
def GRPCServer.Subtract {F Ctx : Type} (A : Arith F) (s : GRPCServer) (elapsed : Int)
    (ctx : Ctx) (req : proto.CalculationRequest F) :
    Option (proto.CalculationResponse F) × Option GoError :=
  toResponse (s.calculator.Subtract A elapsed ctx req.A req.B)

/-- Method `Multiply` (lines 209-227). -/
def GRPCServer.Multiply {F Ctx : Type} (A : Arith F) (s : GRPCServer) (elapsed : Int)
    (ctx : Ctx) (req : proto.CalculationRequest F) :
    Option (proto.CalculationResponse F) × Option GoError :=
  toResponse (s.calculator.Multiply A elapsed ctx req.A req.B)

/-- Method `Divide` (lines 229-247). -/
def GRPCServer.Divide {F Ctx : Type} (A : Arith F) (s : GRPCServer) (elapsed : Int)
    (ctx : Ctx) (req : proto.CalculationRequest F) :
    Option (proto.CalculationResponse F) × Option GoError :=
  toResponse (s.calculator.Divide A elapsed ctx req.A req.B)

end server

/-! ## The calculator service (pkg/calculator/calculator.go) -/

namespace calculator

/-- Constant `OpAdd`. -/
def OpAdd : String := "ADD"

/-- Constant `OpSubtract`. -/
def OpSubtract : String := "SUBTRACT"

/-- Constant `OpMultiply`. -/
def OpMultiply : String := "MULTIPLY"

/-- Constant `OpDivide`. -/
def OpDivide : String := "DIVIDE"

/-- The error returned by every handler for a cancelled or expired context. -/
def cancelled : GoError := GoError.status Code.Canceled "request cancelled or timed out"

/-- Method `Service.Add` (lines 38-66). -/
def Service.Add {F : Type} (A : Arith F) (ctx : CallContext) (req : proto.CalculationRequest F) :
    Option (proto.CalculationResponse F) × Option GoError :=
  if ctx.Err.isSome then (none, some cancelled)
  else if (A.lt A.zero req.A && A.lt (A.sub A.MaxFloat64 req.A) req.B) ||
      (A.lt req.A A.zero && A.lt req.B (A.sub (A.neg A.MaxFloat64) req.A)) then
    (some { Result := A.zero, StatusCode := 1
            ErrorMessage := "overflow detected in addition operation"
            Operation := OpAdd, DurationNs := 0 }, none)
  else
    (some { Result := A.add req.A req.B, StatusCode := 0, ErrorMessage := ""
            Operation := OpAdd, DurationNs := 0 }, none)

/-- Method `Service.Subtract` (lines 69-96). -/
def Service.Subtract {F : Type} (A : Arith F) (ctx : CallContext)
    (req : proto.CalculationRequest F) :
    Option (proto.CalculationResponse F) × Option GoError :=
  if ctx.Err.isSome then (none, some cancelled)
  else if (A.lt A.zero req.A && A.lt req.B (A.sub req.A A.MaxFloat64)) ||
      (A.lt req.A A.zero && A.lt (A.add req.A A.MaxFloat64) req.B) then
    (some { Result := A.zero, StatusCode := 1
            ErrorMessage := "overflow detected in subtraction operation"
            Operation := OpSubtract, DurationNs := 0 }, none)
  else
    (some { Result := A.sub req.A req.B, StatusCode := 0, ErrorMessage := ""
            Operation := OpSubtract, DurationNs := 0 }, none)

/-- Method `Service.Multiply` (lines 99-127). -/
def Service.Multiply {F : Type} (A : Arith F) (ctx : CallContext)
    (req : proto.CalculationRequest F) :
    Option (proto.CalculationResponse F) × Option GoError :=
  if ctx.Err.isSome then (none, some cancelled)
  else if A.lt A.one (A.Abs req.A) &&
      A.lt (A.div A.MaxFloat64 (A.Abs req.A)) (A.Abs req.B) then
    (some { Result := A.zero, StatusCode := 1
            ErrorMessage := "overflow detected in multiplication operation"
            Operation := OpMultiply, DurationNs := 0 }, none)
  else
    (some { Result := A.mul req.A req.B, StatusCode := 0, ErrorMessage := ""
            Operation := OpMultiply, DurationNs := 0 }, none)

end calculator

/-! ## Further definitions of the packages above -/

namespace auth

/-- Constant `OpAdd` of `auth.go` (lines 33-39). -/
def OpAdd : String := "ADD"

/-- Constant `OpSubtract` of `auth.go`. -/
def OpSubtract : String := "SUBTRACT"

/-- Constant `OpMultiply` of `auth.go`. -/
def OpMultiply : String := "MULTIPLY"

/-- Constant `OpDivide` of `auth.go`. -/
def OpDivide : String := "DIVIDE"

end auth

namespace calculator

/-- Method `Service.Divide` (lines 130-167). `format` is the rendering of a
`float64` by the verb `%v` of `fmt.Sprintf`. -/
def Service.Divide {F : Type} (A : Arith F) (format : F → String) (ctx : CallContext)
    (req : proto.CalculationRequest F) :
    Option (proto.CalculationResponse F) × Option GoError :=
  if ctx.Err.isSome then (none, some cancelled)
  else if A.eq req.B A.zero then
    (some { Result := A.zero, StatusCode := 2, ErrorMessage := "division by zero"
            Operation := OpDivide, DurationNs := 0 }, none)
  else if A.IsInf (A.div req.A req.B) || A.IsNaN (A.div req.A req.B) then
    (some { Result := A.zero, StatusCode := 3
            ErrorMessage := "invalid result: " ++ format (A.div req.A req.B)
            Operation := OpDivide, DurationNs := 0 }, none)
  else
    (some { Result := A.div req.A req.B, StatusCode := 0, ErrorMessage := ""
            Operation := OpDivide, DurationNs := 0 }, none)

/-- Function `Validate` (lines 170-179). -/
def Validate {F : Type} (A : Arith F) (req : proto.CalculationRequest F) : Option GoError :=
  if A.IsNaN req.A || A.IsInf req.A then
    some (GoError.plain "first operand is NaN or infinity")
  else if A.IsNaN req.B || A.IsInf req.B then
    some (GoError.plain "second operand is NaN or infinity")
  else none

end calculator

/-- The rendering by `%v` of the values the service formats, a NaN or an
infinity. Finite numbers are never formatted by the code and are rendered as
the empty string here. -/
def Float64.formatSpecial : Float64 → String
  | Float64.NaN => "NaN"
  | Float64.Inf false => "+Inf"
  | Float64.Inf true => "-Inf"
  | Float64.Finite _ _ _ => ""

/-! ## The client (api/client/go/client.go) -/

namespace client

/-- What the generated client stub returns for the outcome of a server
handler: the response, or the status error; an error that is not a status
travels as a status with code Unknown, and a nil response cannot be sent. -/
def deliver {F : Type} (out : Option (proto.CalculationResponse F) × Option GoError) :
    Except GoError (proto.CalculationResponse F) :=
  match out with
  | (_, some (GoError.status code msg)) => Except.error (GoError.status code msg)
  | (_, some (GoError.plain msg)) => Except.error (GoError.status Code.Unknown msg)
  | (some resp, none) => Except.ok resp
  | (none, none) => Except.error (GoError.status Code.Internal "grpc: error while marshaling")

/-- Method `LlamaCalcClient.Divide` (lines 199-217). `stub` is the generated
client method `c.client.Divide`. -/
def LlamaCalcClient.Divide {F : Type} (A : Arith F)
    (stub : proto.CalculationRequest F → Except GoError (proto.CalculationResponse F))
    (a b : F) : F × Option GoError :=
  match stub { A := a, B := b } with
  | Except.error err => (A.zero, some (GoError.plain ("error calling Divide: " ++ err.Error)))
  | Except.ok resp =>
    if resp.StatusCode ≠ 200 then
      (A.zero, some (GoError.plain
        ("error code " ++ toString resp.StatusCode ++ ": " ++ resp.ErrorMessage)))
    else (resp.Result, none)

end client

/-! ## The metrics interceptor (pkg/monitoring/monitoring.go) -/

namespace monitoring

/-- An observation reported to the metrics collector: `RecordRequest`,
`RecordResponseTime` or `RecordError`. -/
inductive Observation
  | Request (method operation : String)
  | ResponseTime (method operation : String) (duration : Int)
  | Error (method operation : String) (errorCode : Int)
deriving DecidableEq

/-- The dynamic type of a non-nil handler response: a `*pb.CalculationResponse`
or anything else. -/
inductive Response (F : Type)
  | calculation (resp : proto.CalculationResponse F)
  | other
deriving DecidableEq

/-- Function `strings.Contains`. -/
def Contains (s substr : String) : Bool :=
  s.data.tails.any (fun t => substr.data.isPrefixOf t)

/-- The number of a status code: `int32(st.Code())`. -/
def codeNumber : Code → Int
  | Code.OK => 0
  | Code.Canceled => 1
  | Code.Unknown => 2
  | Code.InvalidArgument => 3
  | Code.DeadlineExceeded => 4
  | Code.NotFound => 5
  | Code.AlreadyExists => 6
  | Code.PermissionDenied => 7
  | Code.ResourceExhausted => 8
  | Code.FailedPrecondition => 9
  | Code.Aborted => 10
  | Code.OutOfRange => 11
  | Code.Unimplemented => 12
  | Code.Internal => 13
  | Code.Unavailable => 14
  | Code.DataLoss => 15
  | Code.Unauthenticated => 16

/-- The operation extracted from the method name (lines 86-96). -/
def operationOf (method : String) : String :=
  if Contains method "Add" then "ADD"
  else if Contains method "Subtract" then "SUBTRACT"
  else if Contains method "Multiply" then "MULTIPLY"
  else if Contains method "Divide" then "DIVIDE"
  else "UNKNOWN"

/-- The error observation of lines 109-118, if any. -/
def errorObservation {F : Type} (method operation : String)
    (resp : Option (Response F)) (err : Option GoError) : List Observation :=
  match err with
  | some (GoError.status code _) => [Observation.Error method operation (codeNumber code)]
  | some (GoError.plain _) => [Observation.Error method operation (-1)]
  | none =>
    match resp with
    | some (Response.calculation calcResp) =>
      if calcResp.StatusCode ≠ 0 then
        [Observation.Error method operation calcResp.StatusCode]
      else []
    | _ => []

/-- The interceptor function returned by `MetricsInterceptor` (lines 83-124):
the returned pair and the observations recorded, in order. `duration` is the
value of `time.Since(startTime)`. -/
def MetricsInterceptor {F Ctx Req : Type} (duration : Int) (ctx : Ctx) (req : Req)
    (info : auth.UnaryServerInfo)
    (handler : Ctx → Req → Option (Response F) × Option GoError) :
    (Option (Response F) × Option GoError) × List Observation :=
  let method := info.FullMethod
  let operation := operationOf method
  let out := handler ctx req
  (out,
    [Observation.Request method operation,
      Observation.ResponseTime method operation duration] ++
      errorObservation method operation out.1 out.2)

/-- A handler outcome seen as the `interface{}` response of an interceptor. -/
def asResponse {F : Type} (out : Option (proto.CalculationResponse F) × Option GoError) :
    Option (Response F) × Option GoError :=
  (out.1.map Response.calculation, out.2)

end monitoring

/-! ## Values of binary64 numbers -/

/-- Whether a `Float64` is a value of the type `float64`: a NaN, an infinity,
or a finite number in its normalized encoding. -/
def Float64.isWellFormed : Float64 → Bool
  | Float64.Finite _ m e =>
    decide (m < 2 ^ 53) && decide (-1074 ≤ e) && decide (e ≤ 971) &&
      (decide (2 ^ 52 ≤ m) || decide (e = -1074))
  | _ => true

/-- The rational number denoted by a finite `Float64`; `0` for a NaN and for
the infinities. -/
def Float64.toRat : Float64 → ℚ
  | Float64.Finite s m e => (if s then -1 else 1) * (m : ℚ) * (2 : ℚ) ^ e
  | _ => 0

/-- The integer nearest to a rational number, halves away from zero. -/
def roundHalfAway (y : ℚ) : Int :=
  if 0 ≤ y then ⌊y + 1 / 2⌋ else -⌊-y + 1 / 2⌋

/-- The binary logarithm, rounded down, of the ratio `num / den`, as
`roundNearestEven` computes it. -/
def Float64.ratioLog2 (num den : Nat) : Int :=
  if den * Float64.pow2 ((Float64.log2 num : Int) - (Float64.log2 den : Int)) ≤
      num * Float64.pow2 (-((Float64.log2 num : Int) - (Float64.log2 den : Int))) then
    (Float64.log2 num : Int) - (Float64.log2 den : Int)
  else (Float64.log2 num : Int) - (Float64.log2 den : Int) - 1

/-- The last steps of `roundNearestEven`, for a ratio that is not zero and
the exponent `e` chosen for the result. -/
def Float64.roundAt (negative : Bool) (num den : Nat) (e : Int) : Float64 :=
  if (if den * Float64.pow2 e < 2 * (num * Float64.pow2 (-e) % (den * Float64.pow2 e)) ∨
        (2 * (num * Float64.pow2 (-e) % (den * Float64.pow2 e)) = den * Float64.pow2 e ∧
          num * Float64.pow2 (-e) / (den * Float64.pow2 e) % 2 = 1) then
      num * Float64.pow2 (-e) / (den * Float64.pow2 e) + 1
    else num * Float64.pow2 (-e) / (den * Float64.pow2 e)) = 2 ^ 53 then
    if 971 < e + 1 then Float64.Inf negative else Float64.Finite negative (2 ^ 52) (e + 1)
  else if 971 < e then Float64.Inf negative
  else Float64.Finite negative
    (if den * Float64.pow2 e < 2 * (num * Float64.pow2 (-e) % (den * Float64.pow2 e)) ∨
        (2 * (num * Float64.pow2 (-e) % (den * Float64.pow2 e)) = den * Float64.pow2 e ∧
          num * Float64.pow2 (-e) / (den * Float64.pow2 e) % 2 = 1) then
      num * Float64.pow2 (-e) / (den * Float64.pow2 e) + 1
    else num * Float64.pow2 (-e) / (den * Float64.pow2 e)) e

/-! ## Sample values -/

/-- Whether a `float64` is a finite number: neither a NaN nor an infinity. -/
def Float64.isFinite : Float64 → Bool
  | Float64.Finite _ _ _ => true
  | _ => false

/-- The engine configuration of `cmd/server/main.go`: ten decimal places,
overflow checking enabled. -/
def Calc.serverCalculator : Calc.Calculator := Calc.NewCalculator 10 10 true

/-- An RPC outcome that carries an engine result in band: no RPC error, and a
response with the value and the tag of the engine, whose status code is 200
with an empty message exactly when the engine reports no error, and is 400
with the text of the engine error otherwise. -/
def server.InBand {F : Type} (result : Calc.CalculationResult F)
    (out : Option (proto.CalculationResponse F) × Option GoError) : Prop :=
  out.2 = none ∧
  ∃ resp : proto.CalculationResponse F, out.1 = some resp ∧
    resp.Result = result.Value ∧ resp.Operation = result.Operation ∧
    ((resp.StatusCode = 200 ∧ resp.ErrorMessage = "") ↔ result.Error = none) ∧
    (∀ e : GoError, result.Error = some e →
      resp.StatusCode = 400 ∧ resp.ErrorMessage = e.Error)

/-- An RPC outcome for a failed engine result: no RPC error, and a response
with status code 400 whose message is the text of the engine error. -/
def server.FailureResponse {F : Type} (e : GoError)
    (out : Option (proto.CalculationResponse F) × Option GoError) : Prop :=
  out.2 = none ∧
  ∃ resp : proto.CalculationResponse F, out.1 = some resp ∧
    resp.StatusCode = 400 ∧ resp.ErrorMessage = e.Error

namespace auth

/-! ## Auxiliary lemmas -/

theorem isAccessibleLoop_iff_mem (role : Role) (l : List String) :
    isAccessibleLoop role l = true ↔ role ∈ l := by
  induction l with
  | nil => simp [isAccessibleLoop]
  | cons r rest ih =>
    by_cases h : r = role
    · simp [isAccessibleLoop, h]
    · have h2 : ¬ role = r := fun e => h e.symm
      simp [isAccessibleLoop, h, h2, ih]

theorem isAccessible_of_index_nil (interceptor : AuthInterceptor) (method : String)
    (role : Role) (h : interceptor.accessibleRoles.index method = []) :
    interceptor.isAccessible method role = true := by
  simp [AuthInterceptor.isAccessible, h]

theorem isAccessible_of_index_ne_nil (interceptor : AuthInterceptor) (method : String)
    (role : Role) (h : interceptor.accessibleRoles.index method ≠ []) :
    interceptor.isAccessible method role = true ↔
      role ∈ interceptor.accessibleRoles.index method := by
  have hlen : ¬ (interceptor.accessibleRoles.index method).length = 0 := by
    intro h0
    exact h (List.length_eq_zero.mp h0)
  simp only [AuthInterceptor.isAccessible, hlen, if_false]
  exact isAccessibleLoop_iff_mem role _

theorem authorize_handlerCalls {Req : Type} (interceptor : AuthInterceptor) (ctx : Context)
    (method : String) :
    handlerCalls (interceptor.authorize ctx method : AuthorizeResult Req).calls = 0 := by
  unfold AuthInterceptor.authorize
  split
  · rfl
  · split
    · rfl
    · split
      · rfl
      · split <;> rfl

theorem authorize_err_unauthenticated {Req : Type} (interceptor : AuthInterceptor)
    (ctx : Context) (method : String) (e : GoError)
    (h : (interceptor.authorize ctx method : AuthorizeResult Req).err = some e) :
    (interceptor.authorize ctx method : AuthorizeResult Req).role = RoleDenied ∧
      ∃ msg, e = GoError.status Code.Unauthenticated msg := by
  unfold AuthInterceptor.authorize at h ⊢
  split at h
  · simp at h
  · split at h
    · simp only [Option.some.injEq] at h
      exact ⟨rfl, _, h.symm⟩
    · split at h
      · simp only [Option.some.injEq] at h
        exact ⟨rfl, _, h.symm⟩
      · split at h
        · simp only [Option.some.injEq] at h
          exact ⟨rfl, _, h.symm⟩
        · simp at h

theorem handlerCalls_append {Req : Type} (xs ys : List (Call Req)) :
    handlerCalls (xs ++ ys) = handlerCalls xs + handlerCalls ys := by
  induction xs with
  | nil => simp [handlerCalls]
  | cons c cs ih =>
    cases c with
    | Verify t => simpa [handlerCalls] using ih
    | handler c r => simp [handlerCalls, ih]; omega

theorem isAccessible_jwtManager_irrelevant (interceptor : AuthInterceptor)
    (jwtManager : JWTManager) (method : String) (role : Role) :
    AuthInterceptor.isAccessible
      { jwtManager := jwtManager, accessibleRoles := interceptor.accessibleRoles } method role =
      interceptor.isAccessible method role := rfl

theorem Unary_of_precheck_false {Req Resp : Type} (interceptor : AuthInterceptor)
    (ctx : Context) (req : Req) (info : UnaryServerInfo)
    (handler : Context → Req → Option Resp × Option GoError)
    (h : interceptor.isAccessible info.FullMethod RoleGuest = false) :
    interceptor.Unary ctx req info handler =
      { resp := none, err := some permissionDenied, calls := [] } := by
  simp [AuthInterceptor.Unary, h]

theorem Unary_of_authorize_err {Req Resp : Type} (interceptor : AuthInterceptor)
    (ctx : Context) (req : Req) (info : UnaryServerInfo)
    (handler : Context → Req → Option Resp × Option GoError) (e : GoError)
    (h : interceptor.isAccessible info.FullMethod RoleGuest = true)
    (ha : (interceptor.authorize ctx info.FullMethod : AuthorizeResult Req).err = some e) :
    interceptor.Unary ctx req info handler =
      { resp := none, err := some e,
        calls := (interceptor.authorize ctx info.FullMethod : AuthorizeResult Req).calls } := by
  simp [AuthInterceptor.Unary, h, ha]

theorem Unary_of_role_denied {Req Resp : Type} (interceptor : AuthInterceptor)
    (ctx : Context) (req : Req) (info : UnaryServerInfo)
    (handler : Context → Req → Option Resp × Option GoError)
    (h : interceptor.isAccessible info.FullMethod RoleGuest = true)
    (ha : (interceptor.authorize ctx info.FullMethod : AuthorizeResult Req).err = none)
    (hr : interceptor.isAccessible info.FullMethod
      (interceptor.authorize ctx info.FullMethod : AuthorizeResult Req).role = false) :
    interceptor.Unary ctx req info handler =
      { resp := none, err := some permissionDenied,
        calls := (interceptor.authorize ctx info.FullMethod : AuthorizeResult Req).calls } := by
  simp [AuthInterceptor.Unary, h, ha, hr]

theorem Unary_of_admitted {Req Resp : Type} (interceptor : AuthInterceptor)
    (ctx : Context) (req : Req) (info : UnaryServerInfo)
    (handler : Context → Req → Option Resp × Option GoError)
    (h : Admitted Req interceptor ctx info.FullMethod) :
    interceptor.Unary ctx req info handler =
      { resp := (handler ctx req).1, err := (handler ctx req).2,
        calls := (interceptor.authorize ctx info.FullMethod : AuthorizeResult Req).calls ++
          [Call.handler ctx req] } := by
  obtain ⟨h1, h2, h3⟩ := h
  simp [AuthInterceptor.Unary, h1, h2, h3]

theorem ouStep_of_not_match (role : Role) (ou : String) (h1 : ou ≠ "Admin")
    (h2 : ou ≠ "Guest") : ouStep role ou = role := by
  simp [ouStep, h1, h2]

theorem foldl_ouStep_of_no_match (role : Role) (units : List String)
    (h : ∀ t ∈ units, t ≠ "Admin" ∧ t ≠ "Guest") : units.foldl ouStep role = role := by
  induction units generalizing role with
  | nil => rfl
  | cons u us ih =>
    have hu := h u (List.mem_cons_self u us)
    rw [List.foldl_cons, ouStep_of_not_match role u hu.1 hu.2]
    exact ih role (fun t ht => h t (List.mem_cons_of_mem u ht))

theorem foldl_ouStep_cases (role : Role) (units : List String) :
    units.foldl ouStep role = role ∨ units.foldl ouStep role = RoleAdmin ∨
      units.foldl ouStep role = RoleGuest := by
  induction units generalizing role with
  | nil => exact Or.inl rfl
  | cons u us ih =>
    rw [List.foldl_cons]
    rcases ih (ouStep role u) with h | h | h
    · rw [h]
      unfold ouStep
      split
      · exact Or.inr (Or.inl rfl)
      · split
        · exact Or.inr (Or.inr rfl)
        · exact Or.inl rfl
    · exact Or.inr (Or.inl h)
    · exact Or.inr (Or.inr h)

theorem getRoleFromCert_of_verified (leaf : Certificate) (rest : List Certificate)
    (chains : List (List Certificate)) (md : Option StringSliceMap) :
    getRoleFromCert
      { peer := some (Peer.mk (AuthInfo.TLSInfo (ConnectionState.mk ((leaf :: rest) :: chains))))
        md := md } =
      (leaf.Subject.OrganizationalUnit.foldl ouStep RoleUser, none) := rfl

/-! ## The authorization gate -/

/-- C1: for every access policy, method and role, `isAccessible` is true when
the policy has no entry or an empty allow-list for the method, and otherwise
is true exactly when the role is an element of the allow-list. -/
theorem isAccessible_spec (interceptor : AuthInterceptor) (method : String) (role : Role) :
    ((interceptor.accessibleRoles.lookup method = none ∨
        interceptor.accessibleRoles.lookup method = some []) →
      interceptor.isAccessible method role = true) ∧
    (∀ allowed : List String,
      interceptor.accessibleRoles.lookup method = some allowed → allowed ≠ [] →
        (interceptor.isAccessible method role = true ↔ role ∈ allowed)) := by
  constructor
  · intro h
    apply isAccessible_of_index_nil
    rcases h with h | h <;> simp [StringSliceMap.index, h]
  · intro allowed hl hne
    have hidx : interceptor.accessibleRoles.index method = allowed := by
      simp [StringSliceMap.index, hl]
    have := isAccessible_of_index_ne_nil interceptor method role (by rw [hidx]; exact hne)
    rw [hidx] at this
    exact this

/-- C2: under the policy of `NewAuthInterceptor`, Add and Subtract are
accessible exactly to ADMIN, USER and GUEST, Multiply exactly to ADMIN and
USER, and Divide exactly to ADMIN. -/
theorem NewAuthInterceptor_isAccessible (jwtManager : JWTManager) (r : Role) :
    ((NewAuthInterceptor jwtManager).isAccessible "/calculator.Calculator/Add" r = true ↔
      (r = RoleAdmin ∨ r = RoleUser ∨ r = RoleGuest)) ∧
    ((NewAuthInterceptor jwtManager).isAccessible "/calculator.Calculator/Subtract" r = true ↔
      (r = RoleAdmin ∨ r = RoleUser ∨ r = RoleGuest)) ∧
    ((NewAuthInterceptor jwtManager).isAccessible "/calculator.Calculator/Multiply" r = true ↔
      (r = RoleAdmin ∨ r = RoleUser)) ∧
    ((NewAuthInterceptor jwtManager).isAccessible "/calculator.Calculator/Divide" r = true ↔
      r = RoleAdmin) := by
  have hA : (NewAuthInterceptor jwtManager).accessibleRoles.index "/calculator.Calculator/Add"
      = [RoleAdmin, RoleUser, RoleGuest] := by rfl
  have hS : (NewAuthInterceptor jwtManager).accessibleRoles.index
      "/calculator.Calculator/Subtract" = [RoleAdmin, RoleUser, RoleGuest] := by rfl
  have hM : (NewAuthInterceptor jwtManager).accessibleRoles.index
      "/calculator.Calculator/Multiply" = [RoleAdmin, RoleUser] := by rfl
  have hD : (NewAuthInterceptor jwtManager).accessibleRoles.index
      "/calculator.Calculator/Divide" = [RoleAdmin] := by rfl
  refine ⟨?_, ?_, ?_, ?_⟩
  · rw [isAccessible_of_index_ne_nil _ _ _ (by rw [hA]; simp), hA]; simp
  · rw [isAccessible_of_index_ne_nil _ _ _ (by rw [hS]; simp), hS]; simp
  · rw [isAccessible_of_index_ne_nil _ _ _ (by rw [hM]; simp), hM]; simp
  · rw [isAccessible_of_index_ne_nil _ _ _ (by rw [hD]; simp), hD]; simp

/-! ## The access interceptor -/

/-- C3: when the Guest pre-check fails for a method, the interceptor returns
the PermissionDenied error with a nil response and no recorded call, whatever
the token verifier, the peer, the metadata, the request and the handler are:
neither the token verifier nor the handler is invoked. -/
theorem Unary_precheck_denied {Req Resp : Type} (interceptor : AuthInterceptor)
    (method : String) (h : interceptor.isAccessible method RoleGuest = false)
    (jwtManager : JWTManager) (ctx : Context) (req : Req)
    (handler : Context → Req → Option Resp × Option GoError) :
    AuthInterceptor.Unary
      { jwtManager := jwtManager, accessibleRoles := interceptor.accessibleRoles }
      ctx req { FullMethod := method } handler =
      { resp := none
        err := some (GoError.status Code.PermissionDenied "no permission to access this RPC")
        calls := [] } := by
  apply Unary_of_precheck_false
  exact h

theorem Unary_precheck_denied_witness :
    (NewAuthInterceptor sampleJWTManager).isAccessible "/calculator.Calculator/Divide"
      RoleGuest = false ∧
    AuthInterceptor.Unary
      { jwtManager := sampleJWTManager
        accessibleRoles := (NewAuthInterceptor sampleJWTManager).accessibleRoles }
      (tokenContext "good") 5 { FullMethod := "/calculator.Calculator/Divide" } sampleHandler =
      { resp := none
        err := some (GoError.status Code.PermissionDenied "no permission to access this RPC")
        calls := [] } :=
  ⟨by decide,
    Unary_precheck_denied (NewAuthInterceptor sampleJWTManager) "/calculator.Calculator/Divide"
      (by decide) sampleJWTManager (tokenContext "good") 5 sampleHandler⟩

/-- C4: the handler is invoked exactly when the call is admitted (Guest
pre-check, successful credential resolution, access for the resolved role);
then it is invoked once, after the calls of the resolution, and its response
and error are returned unchanged; otherwise it is not invoked and the result
is a nil response with a PermissionDenied or Unauthenticated status error. -/
theorem Unary_handler_iff_admitted {Req Resp : Type} (interceptor : AuthInterceptor)
    (ctx : Context) (req : Req) (info : UnaryServerInfo)
    (handler : Context → Req → Option Resp × Option GoError) :
    (0 < handlerCalls (interceptor.Unary ctx req info handler).calls ↔
      Admitted Req interceptor ctx info.FullMethod) ∧
    (Admitted Req interceptor ctx info.FullMethod →
      handlerCalls (interceptor.Unary ctx req info handler).calls = 1 ∧
      (interceptor.Unary ctx req info handler).calls =
        (interceptor.authorize ctx info.FullMethod : AuthorizeResult Req).calls ++
          [Call.handler ctx req] ∧
      (interceptor.Unary ctx req info handler).resp = (handler ctx req).1 ∧
      (interceptor.Unary ctx req info handler).err = (handler ctx req).2) ∧
    (¬ Admitted Req interceptor ctx info.FullMethod →
      handlerCalls (interceptor.Unary ctx req info handler).calls = 0 ∧
      (interceptor.Unary ctx req info handler).resp = none ∧
      ∃ msg : String,
        (interceptor.Unary ctx req info handler).err =
            some (GoError.status Code.PermissionDenied msg) ∨
        (interceptor.Unary ctx req info handler).err =
            some (GoError.status Code.Unauthenticated msg)) := by
  have hadm : Admitted Req interceptor ctx info.FullMethod →
      handlerCalls (interceptor.Unary ctx req info handler).calls = 1 ∧
      (interceptor.Unary ctx req info handler).calls =
        (interceptor.authorize ctx info.FullMethod : AuthorizeResult Req).calls ++
          [Call.handler ctx req] ∧
      (interceptor.Unary ctx req info handler).resp = (handler ctx req).1 ∧
      (interceptor.Unary ctx req info handler).err = (handler ctx req).2 := by
    intro h
    rw [Unary_of_admitted interceptor ctx req info handler h]
    refine ⟨?_, rfl, rfl, rfl⟩
    simp [handlerCalls_append, authorize_handlerCalls, handlerCalls]
  have hnot : ¬ Admitted Req interceptor ctx info.FullMethod →
      handlerCalls (interceptor.Unary ctx req info handler).calls = 0 ∧
      (interceptor.Unary ctx req info handler).resp = none ∧
      ∃ msg : String,
        (interceptor.Unary ctx req info handler).err =
            some (GoError.status Code.PermissionDenied msg) ∨
        (interceptor.Unary ctx req info handler).err =
            some (GoError.status Code.Unauthenticated msg) := by
    intro h
    cases h1 : interceptor.isAccessible info.FullMethod RoleGuest with
    | false =>
      rw [Unary_of_precheck_false interceptor ctx req info handler h1]
      exact ⟨rfl, rfl, _, Or.inl rfl⟩
    | true =>
      cases h2 : (interceptor.authorize ctx info.FullMethod : AuthorizeResult Req).err with
      | some e =>
        rw [Unary_of_authorize_err interceptor ctx req info handler e h1 h2]
        obtain ⟨_, msg, hmsg⟩ :=
          authorize_err_unauthenticated interceptor ctx info.FullMethod e h2
        refine ⟨authorize_handlerCalls interceptor ctx info.FullMethod, rfl, msg, Or.inr ?_⟩
        rw [hmsg]
      | none =>
        cases h3 : interceptor.isAccessible info.FullMethod
            (interceptor.authorize ctx info.FullMethod : AuthorizeResult Req).role with
        | false =>
          rw [Unary_of_role_denied interceptor ctx req info handler h1 h2 h3]
          exact ⟨authorize_handlerCalls interceptor ctx info.FullMethod, rfl, _, Or.inl rfl⟩
        | true => exact absurd ⟨h1, h2, h3⟩ h
  refine ⟨⟨?_, ?_⟩, hadm, hnot⟩
  · intro hpos
    by_contra hna
    have := (hnot hna).1
    omega
  · intro h
    have := (hadm h).1
    omega

/-- C5, the code at two inputs the claim covers: a caller whose certificate
resolves to USER, a role listed for Multiply, and a caller whose certificate
resolves to ADMIN, the role listed for Divide, are both answered with
PermissionDenied by the Guest pre-check, and the handler is not invoked. -/
theorem Unary_listed_role_denied :
    ((NewAuthInterceptor sampleJWTManager).authorize (certContext ["Engineering"] none)
        "/calculator.Calculator/Multiply" : AuthorizeResult Nat) =
      { role := RoleUser, err := none, calls := [] } ∧
    (NewAuthInterceptor sampleJWTManager).isAccessible "/calculator.Calculator/Multiply"
      RoleUser = true ∧
    (NewAuthInterceptor sampleJWTManager).Unary (certContext ["Engineering"] none) 6
        { FullMethod := "/calculator.Calculator/Multiply" } sampleHandler =
      { resp := none, err := some permissionDenied, calls := [] } ∧
    ((NewAuthInterceptor sampleJWTManager).authorize (certContext ["Admin"] none)
        "/calculator.Calculator/Divide" : AuthorizeResult Nat) =
      { role := RoleAdmin, err := none, calls := [] } ∧
    (NewAuthInterceptor sampleJWTManager).isAccessible "/calculator.Calculator/Divide"
      RoleAdmin = true ∧
    (NewAuthInterceptor sampleJWTManager).Unary (certContext ["Admin"] none) 5
        { FullMethod := "/calculator.Calculator/Divide" } sampleHandler =
      { resp := none, err := some permissionDenied, calls := [] } := by
  decide

/-- C6: under the policy of `NewAuthInterceptor`, a call to Multiply or Divide
whose credentials resolve to a role outside the allow-list of the method (such
as GUEST for Divide) gets a nil response and the PermissionDenied error, and
the handler is not invoked. -/
theorem Unary_unlisted_role_denied {Req Resp : Type} (jwtManager : JWTManager)
    (ctx : Context) (req : Req) (handler : Context → Req → Option Resp × Option GoError)
    (method : String) (role : Role)
    (hm : method = "/calculator.Calculator/Multiply" ∨ method = "/calculator.Calculator/Divide")
    (hres : ((NewAuthInterceptor jwtManager).authorize ctx method : AuthorizeResult Req).role =
        role ∧
      ((NewAuthInterceptor jwtManager).authorize ctx method : AuthorizeResult Req).err = none)
    (hnot : role ∉ (NewAuthInterceptor jwtManager).accessibleRoles.index method) :
    ((NewAuthInterceptor jwtManager).Unary ctx req { FullMethod := method } handler).resp =
      none ∧
    ((NewAuthInterceptor jwtManager).Unary ctx req { FullMethod := method } handler).err =
      some (GoError.status Code.PermissionDenied "no permission to access this RPC") ∧
    handlerCalls
      ((NewAuthInterceptor jwtManager).Unary ctx req { FullMethod := method } handler).calls =
      0 := by
  have hpre : (NewAuthInterceptor jwtManager).isAccessible
      (UnaryServerInfo.mk method).FullMethod RoleGuest = false := by
    rcases hm with hm | hm <;> subst hm <;> rfl
  rw [Unary_of_precheck_false (NewAuthInterceptor jwtManager) ctx req _ handler hpre]
  exact ⟨rfl, rfl, rfl⟩

theorem Unary_unlisted_role_denied_witness :
    (((NewAuthInterceptor sampleJWTManager).authorize (certContext ["Guest"] none)
          "/calculator.Calculator/Divide" : AuthorizeResult Nat).role = RoleGuest ∧
      ((NewAuthInterceptor sampleJWTManager).authorize (certContext ["Guest"] none)
          "/calculator.Calculator/Divide" : AuthorizeResult Nat).err = none) ∧
    RoleGuest ∉
      (NewAuthInterceptor sampleJWTManager).accessibleRoles.index
        "/calculator.Calculator/Divide" ∧
    (((NewAuthInterceptor sampleJWTManager).Unary (certContext ["Guest"] none) 5
        { FullMethod := "/calculator.Calculator/Divide" } sampleHandler).resp = none ∧
    ((NewAuthInterceptor sampleJWTManager).Unary (certContext ["Guest"] none) 5
        { FullMethod := "/calculator.Calculator/Divide" } sampleHandler).err =
      some (GoError.status Code.PermissionDenied "no permission to access this RPC") ∧
    handlerCalls
      ((NewAuthInterceptor sampleJWTManager).Unary (certContext ["Guest"] none) 5
        { FullMethod := "/calculator.Calculator/Divide" } sampleHandler).calls = 0) :=
  ⟨by decide, by decide,
    Unary_unlisted_role_denied sampleJWTManager (certContext ["Guest"] none) 5 sampleHandler
      "/calculator.Calculator/Divide" RoleGuest (Or.inr rfl) (by decide) (by decide)⟩

/-! ## Credential resolution -/

/-- C7: for a call over a TLS session whose first verified chain is not empty,
`authorize` returns the role computed from the organizational units of the
leaf certificate, with no error and without any call to the token verifier,
whatever the metadata and the token verifier are. -/
theorem authorize_certificate_precedence {Req : Type} (interceptor : AuthInterceptor)
    (method : String) (leaf : Certificate) (rest : List Certificate)
    (chains : List (List Certificate)) (md : Option StringSliceMap) :
    (interceptor.authorize
        { peer := some (Peer.mk (AuthInfo.TLSInfo
            (ConnectionState.mk ((leaf :: rest) :: chains))))
          md := md } method : AuthorizeResult Req) =
      { role := leaf.Subject.OrganizationalUnit.foldl ouStep RoleUser
        err := none
        calls := [] } ∧
    (interceptor.authorize
        { peer := some (Peer.mk (AuthInfo.TLSInfo
            (ConnectionState.mk ((leaf :: rest) :: chains))))
          md := md } method : AuthorizeResult Req).role =
      (getRoleFromCert
        { peer := some (Peer.mk (AuthInfo.TLSInfo
            (ConnectionState.mk ((leaf :: rest) :: chains))))
          md := none }).1 := by
  constructor
  · unfold AuthInterceptor.authorize
    rw [getRoleFromCert_of_verified]
  · unfold AuthInterceptor.authorize
    rw [getRoleFromCert_of_verified, getRoleFromCert_of_verified]

/-- C8: when the certificate path fails, `authorize` returns DENIED with an
Unauthenticated error if the call has no metadata, if the metadata has no
authorization value, or if the verification of the first authorization value
fails; it returns the role of the token claims, without error, only when that
verification succeeds. A call so rejected, on a method that passes the Guest
pre-check, gets a nil response and the Unauthenticated error from the
interceptor, and the handler is not invoked. -/
theorem authorize_token_fallback {Req Resp : Type} (interceptor : AuthInterceptor)
    (ctx : Context) (method : String) (hcert : (getRoleFromCert ctx).2 ≠ none) :
    (ctx.md = none →
      (interceptor.authorize ctx method : AuthorizeResult Req) =
        { role := RoleDenied
          err := some (GoError.status Code.Unauthenticated "metadata is not provided")
          calls := [] }) ∧
    (∀ md : StringSliceMap, ctx.md = some md → md.index "authorization" = [] →
      (interceptor.authorize ctx method : AuthorizeResult Req) =
        { role := RoleDenied
          err := some (GoError.status Code.Unauthenticated "authorization token is not provided")
          calls := [] }) ∧
    (∀ (md : StringSliceMap) (accessToken : String) (more : List String) (e : String),
      ctx.md = some md → md.index "authorization" = accessToken :: more →
      interceptor.jwtManager.Verify accessToken = Except.error e →
      (interceptor.authorize ctx method : AuthorizeResult Req) =
        { role := RoleDenied
          err := some (GoError.status Code.Unauthenticated ("access token is invalid: " ++ e))
          calls := [Call.Verify accessToken] }) ∧
    (∀ (md : StringSliceMap) (accessToken : String) (more : List String) (claims : UserClaims),
      ctx.md = some md → md.index "authorization" = accessToken :: more →
      interceptor.jwtManager.Verify accessToken = Except.ok claims →
      (interceptor.authorize ctx method : AuthorizeResult Req) =
        { role := claims.Role, err := none, calls := [Call.Verify accessToken] }) ∧
    ((interceptor.authorize ctx method : AuthorizeResult Req).err = none →
      ∃ (md : StringSliceMap) (accessToken : String) (more : List String) (claims : UserClaims),
        ctx.md = some md ∧ md.index "authorization" = accessToken :: more ∧
        interceptor.jwtManager.Verify accessToken = Except.ok claims ∧
        (interceptor.authorize ctx method : AuthorizeResult Req).role = claims.Role) ∧
    (∀ (req : Req) (handler : Context → Req → Option Resp × Option GoError),
      interceptor.isAccessible method RoleGuest = true →
      (interceptor.authorize ctx method : AuthorizeResult Req).err ≠ none →
      (interceptor.Unary ctx req { FullMethod := method } handler).resp = none ∧
      (∃ msg : String, (interceptor.Unary ctx req { FullMethod := method } handler).err =
        some (GoError.status Code.Unauthenticated msg)) ∧
      handlerCalls (interceptor.Unary ctx req { FullMethod := method } handler).calls = 0) := by
  obtain ⟨r0, e0, hg⟩ : ∃ r0 e0, getRoleFromCert ctx = (r0, some e0) := by
    cases hc : getRoleFromCert ctx with
    | mk r o =>
      cases o with
      | none => rw [hc] at hcert; exact absurd rfl hcert
      | some e => exact ⟨r, e, rfl⟩
  refine ⟨?_, ?_, ?_, ?_, ?_, ?_⟩
  · intro hmd
    simp only [AuthInterceptor.authorize, hg, hmd]
  · intro md hmd hidx
    simp only [AuthInterceptor.authorize, hg, hmd, hidx]
  · intro md accessToken more e hmd hidx hv
    simp only [AuthInterceptor.authorize, hg, hmd, hidx, hv]
  · intro md accessToken more claims hmd hidx hv
    simp only [AuthInterceptor.authorize, hg, hmd, hidx, hv]
  · intro herr
    cases hmd : ctx.md with
    | none => simp [AuthInterceptor.authorize, hg, hmd] at herr
    | some md =>
      cases hidx : md.index "authorization" with
      | nil => simp [AuthInterceptor.authorize, hg, hmd, hidx] at herr
      | cons accessToken more =>
        cases hv : interceptor.jwtManager.Verify accessToken with
        | error e => simp [AuthInterceptor.authorize, hg, hmd, hidx, hv] at herr
        | ok claims =>
          refine ⟨md, accessToken, more, claims, rfl, hidx, hv, ?_⟩
          simp only [AuthInterceptor.authorize, hg, hmd, hidx, hv]
  · intro req handler hpre herr
    cases he : (interceptor.authorize ctx method : AuthorizeResult Req).err with
    | none => exact absurd he herr
    | some e =>
      rw [Unary_of_authorize_err interceptor ctx req { FullMethod := method } handler e hpre he]
      obtain ⟨_, msg, hmsg⟩ := authorize_err_unauthenticated interceptor ctx method e he
      refine ⟨rfl, ⟨msg, ?_⟩, authorize_handlerCalls interceptor ctx method⟩
      rw [hmsg]

theorem authorize_token_fallback_witness :
    (getRoleFromCert (tokenContext "stale")).2 ≠ none ∧
    ((NewAuthInterceptor sampleJWTManager).authorize (tokenContext "stale")
        "/calculator.Calculator/Add" : AuthorizeResult Nat) =
      { role := RoleDenied
        err := some (GoError.status Code.Unauthenticated
          ("access token is invalid: " ++ "token is expired"))
        calls := [Call.Verify "stale"] } :=
  ⟨by decide,
    (@authorize_token_fallback Nat Nat (NewAuthInterceptor sampleJWTManager)
      (tokenContext "stale") "/calculator.Calculator/Add" (by decide)).2.2.1
      [("authorization", ["stale"])] "stale" [] "token is expired" rfl rfl rfl⟩

/-! ## The certificate role mapper -/

/-- C9: for a verified leaf certificate with organizational units `units`,
`getRoleFromCert` succeeds; the role is USER when `units` contains neither
"Admin" nor "Guest"; otherwise it is the role of the last element of `units`
that is one of the two (ADMIN for "Admin", GUEST for "Guest"); and it is never
DENIED. -/
theorem getRoleFromCert_last_match (units : List String) (rest : List Certificate)
    (chains : List (List Certificate)) (md : Option StringSliceMap) :
    (getRoleFromCert
      { peer := some (Peer.mk (AuthInfo.TLSInfo
          (ConnectionState.mk ((Certificate.mk (Name.mk units) :: rest) :: chains))))
        md := md }).2 = none ∧
    (("Admin" ∉ units ∧ "Guest" ∉ units) →
      (getRoleFromCert
        { peer := some (Peer.mk (AuthInfo.TLSInfo
            (ConnectionState.mk ((Certificate.mk (Name.mk units) :: rest) :: chains))))
          md := md }).1 = RoleUser) ∧
    (∀ (before : List String) (ou : String) (after : List String),
      units = before ++ ou :: after → (ou = "Admin" ∨ ou = "Guest") →
      (∀ t ∈ after, t ≠ "Admin" ∧ t ≠ "Guest") →
      (getRoleFromCert
        { peer := some (Peer.mk (AuthInfo.TLSInfo
            (ConnectionState.mk ((Certificate.mk (Name.mk units) :: rest) :: chains))))
          md := md }).1 = if ou = "Admin" then RoleAdmin else RoleGuest) ∧
    (getRoleFromCert
      { peer := some (Peer.mk (AuthInfo.TLSInfo
          (ConnectionState.mk ((Certificate.mk (Name.mk units) :: rest) :: chains))))
        md := md }).1 ≠ RoleDenied := by
  rw [getRoleFromCert_of_verified]
  refine ⟨rfl, ?_, ?_, ?_⟩
  · intro h
    apply foldl_ouStep_of_no_match
    intro t ht
    exact ⟨fun e => h.1 (e ▸ ht), fun e => h.2 (e ▸ ht)⟩
  · intro before ou after hu hou hafter
    show units.foldl ouStep RoleUser = _
    rw [hu, List.foldl_append, List.foldl_cons, foldl_ouStep_of_no_match _ after hafter]
    rcases hou with h | h <;> subst h <;> simp [ouStep]
  · show units.foldl ouStep RoleUser ≠ RoleDenied
    rcases foldl_ouStep_cases RoleUser units with h | h | h <;> rw [h] <;> decide

/-- C10: `getRoleFromCert` returns an error, together with the role DENIED,
exactly when the call has no peer, or the auth info of the peer is not a TLS
session, or the list of verified chains is empty, or the first verified chain
is empty; in every other case it returns no error. -/
theorem getRoleFromCert_fails_iff (ctx : Context) :
    (((getRoleFromCert ctx).2 ≠ none ∧ (getRoleFromCert ctx).1 = RoleDenied) ↔
      (ctx.peer = none ∨
        ctx.peer = some (Peer.mk AuthInfo.other) ∨
        (∃ mtls : ConnectionState, ctx.peer = some (Peer.mk (AuthInfo.TLSInfo mtls)) ∧
          mtls.VerifiedChains = []) ∨
        (∃ mtls : ConnectionState, ctx.peer = some (Peer.mk (AuthInfo.TLSInfo mtls)) ∧
          mtls.VerifiedChains.head? = some []))) ∧
    (¬ (ctx.peer = none ∨
        ctx.peer = some (Peer.mk AuthInfo.other) ∨
        (∃ mtls : ConnectionState, ctx.peer = some (Peer.mk (AuthInfo.TLSInfo mtls)) ∧
          mtls.VerifiedChains = []) ∨
        (∃ mtls : ConnectionState, ctx.peer = some (Peer.mk (AuthInfo.TLSInfo mtls)) ∧
          mtls.VerifiedChains.head? = some [])) →
      (getRoleFromCert ctx).2 = none) := by
  obtain ⟨peer, md⟩ := ctx
  cases peer with
  | none => simp [getRoleFromCert]
  | some p =>
    obtain ⟨info⟩ := p
    cases info with
    | other => simp [getRoleFromCert]
    | TLSInfo mtls =>
      obtain ⟨chains⟩ := mtls
      cases chains with
      | nil => simp [getRoleFromCert]
      | cons first others =>
        cases first with
        | nil => simp [getRoleFromCert]
        | cons leaf rest => simp [getRoleFromCert]

/-! ## The sentinel role and public methods -/

/-- C11, as stated, fails: with a token verifier whose claims carry the role
DENIED, `authorize` returns without error and the returned role is DENIED. -/
theorem authorize_denied_without_error :
    ((NewAuthInterceptor deniedJWTManager).authorize (tokenContext "any")
        "/calculator.Calculator/Add" : AuthorizeResult Nat).err = none ∧
    ((NewAuthInterceptor deniedJWTManager).authorize (tokenContext "any")
        "/calculator.Calculator/Add" : AuthorizeResult Nat).role = RoleDenied := by
  decide

/-- C11, amended: if the token verifier never yields claims whose role is
DENIED, then whenever `authorize` returns without error the returned role is
not DENIED. -/
theorem authorize_success_not_denied {Req : Type} (interceptor : AuthInterceptor)
    (ctx : Context) (method : String)
    (hv : ∀ (accessToken : String) (claims : UserClaims),
      interceptor.jwtManager.Verify accessToken = Except.ok claims →
        claims.Role ≠ RoleDenied)
    (herr : (interceptor.authorize ctx method : AuthorizeResult Req).err = none) :
    (interceptor.authorize ctx method : AuthorizeResult Req).role ≠ RoleDenied := by
  unfold AuthInterceptor.authorize at herr ⊢
  split
  · rename_i role hg
    have hrole : role = (getRoleFromCert ctx).1 := by rw [hg]
    rw [hrole]
    unfold getRoleFromCert at hg ⊢
    split at hg
    · simp at hg
    · split at hg
      · simp at hg
      · split at hg
        · simp at hg
        · simp at hg
        · rename_i clientCert _ _ _
          show clientCert.Subject.OrganizationalUnit.foldl ouStep RoleUser ≠ RoleDenied
          rcases foldl_ouStep_cases RoleUser clientCert.Subject.OrganizationalUnit with
            h | h | h <;> rw [h] <;> decide
  · rename_i hg
    simp only [hg] at herr
    split
    · rename_i hmd
      simp [hmd] at herr
    · rename_i md hmd
      simp only [hmd] at herr
      split
      · rename_i hidx
        simp [hidx] at herr
      · rename_i accessToken more hidx
        simp only [hidx] at herr
        split
        · rename_i e hv2
          simp [hv2] at herr
        · rename_i claims hv2
          exact hv accessToken claims hv2

theorem authorize_success_not_denied_witness :
    (∀ (accessToken : String) (claims : UserClaims),
      (NewAuthInterceptor sampleJWTManager).jwtManager.Verify accessToken = Except.ok claims →
        claims.Role ≠ RoleDenied) ∧
    ((NewAuthInterceptor sampleJWTManager).authorize (tokenContext "good")
        "/calculator.Calculator/Add" : AuthorizeResult Nat).err = none ∧
    ((NewAuthInterceptor sampleJWTManager).authorize (tokenContext "good")
        "/calculator.Calculator/Add" : AuthorizeResult Nat).role ≠ RoleDenied :=
  have hv : ∀ (accessToken : String) (claims : UserClaims),
      (NewAuthInterceptor sampleJWTManager).jwtManager.Verify accessToken = Except.ok claims →
        claims.Role ≠ RoleDenied := by
    intro accessToken claims h
    simp only [NewAuthInterceptor, sampleJWTManager] at h
    split at h
    · injection h with h
      rw [← h]
      decide
    · exact Except.noConfusion h
  ⟨hv, by decide,
    authorize_success_not_denied (NewAuthInterceptor sampleJWTManager) (tokenContext "good")
      "/calculator.Calculator/Add" hv (by decide)⟩

/-- C12, the code at an input the claim covers: the method has no entry in the
policy of `NewAuthInterceptor` and passes both access checks for every role,
yet a caller without certificate and without authorization token gets a nil
response and an Unauthenticated error, and the handler is not invoked. -/
theorem Unary_public_method_unauthenticated :
    (NewAuthInterceptor sampleJWTManager).accessibleRoles.lookup
      "/proto.HealthService/Health" = none ∧
    (∀ role : Role, (NewAuthInterceptor sampleJWTManager).isAccessible
      "/proto.HealthService/Health" role = true) ∧
    (NewAuthInterceptor sampleJWTManager).Unary anonymousContext 5
        { FullMethod := "/proto.HealthService/Health" } sampleHandler =
      { resp := none
        err := some (GoError.status Code.Unauthenticated "authorization token is not provided")
        calls := [] } := by
  refine ⟨by decide, ?_, by decide⟩
  intro role
  exact isAccessible_of_index_nil _ _ _ (by rfl)

end auth

/-! ## The arithmetic engine -/

namespace Calc

theorem validateInput_ieee (c : Calculator) (value : Float64) :
    c.validateInput ieee value = value.isFinite := by
  cases value <;> rfl

theorem pow2_pos (e : Int) : 0 < Float64.pow2 e := by
  unfold Float64.pow2
  positivity

theorem scaled_eq_zero_iff (s : Bool) (m : Nat) (e g : Int) :
    Float64.scaled s m e g = 0 ↔ m = 0 := by
  have hp : Float64.pow2 (e - g) ≠ 0 := Nat.pos_iff_ne_zero.mp (pow2_pos _)
  unfold Float64.scaled
  split
  · rw [neg_eq_zero, Int.natCast_eq_zero, Nat.mul_eq_zero]
    exact ⟨fun h => h.resolve_right hp, Or.inl⟩
  · rw [Int.natCast_eq_zero, Nat.mul_eq_zero]
    exact ⟨fun h => h.resolve_right hp, Or.inl⟩

theorem eq_zero_iff (b : Float64) :
    Float64.eq b Float64.zero = true ↔ ∃ (s : Bool) (e : Int), b = Float64.Finite s 0 e := by
  cases b with
  | NaN => simp [Float64.eq, Float64.zero]
  | Inf s => simp [Float64.eq, Float64.zero]
  | Finite s m e =>
    have hz : Float64.scaled false 0 (-1074) (min e (-1074)) = 0 :=
      (scaled_eq_zero_iff _ _ _ _).mpr rfl
    simp only [Float64.eq, Float64.zero, decide_eq_true_eq, hz, scaled_eq_zero_iff]
    constructor
    · intro h
      exact ⟨s, e, by rw [h]⟩
    · rintro ⟨t, f, h⟩
      injection h

theorem finish_error_ne_divideByZero {F : Type} (A : Arith F) (c : Calculator) (elapsed : Int)
    (operation : String) (result : F) :
    (c.finish A elapsed operation result).Error ≠ some ErrDivideByZero := by
  unfold Calculator.finish
  split
  · split
    · show some ErrOverflow ≠ some ErrDivideByZero
      decide
    · show some ErrUnderflow ≠ some ErrDivideByZero
      decide
  · simp

/-- C13: for each of the four operations, every configuration and all
operands, if an operand is a NaN or an infinity the result has the error
`ErrInvalidInput` and the value zero; for Divide this holds also when the
divisor is zero. -/
theorem invalid_operand_rejected {Ctx : Type} (c : Calculator) (elapsed : Int) (ctx : Ctx)
    (a b : Float64) (h : a.isFinite = false ∨ b.isFinite = false) :
    c.Add ieee elapsed ctx a b =
      { Value := Float64.zero, Duration := elapsed, Operation := "Add"
        Error := some ErrInvalidInput } ∧
    c.Subtract ieee elapsed ctx a b =
      { Value := Float64.zero, Duration := elapsed, Operation := "Subtract"
        Error := some ErrInvalidInput } ∧
    c.Multiply ieee elapsed ctx a b =
      { Value := Float64.zero, Duration := elapsed, Operation := "Multiply"
        Error := some ErrInvalidInput } ∧
    c.Divide ieee elapsed ctx a b =
      { Value := Float64.zero, Duration := elapsed, Operation := "Divide"
        Error := some ErrInvalidInput } := by
  have hv : (!c.validateInput ieee a || !c.validateInput ieee b) = true := by
    rw [validateInput_ieee, validateInput_ieee]
    rcases h with h | h <;> simp [h]
  refine ⟨?_, ?_, ?_, ?_⟩
  · simp only [Calculator.Add, hv, if_true]; rfl
  · simp only [Calculator.Subtract, hv, if_true]; rfl
  · simp only [Calculator.Multiply, hv, if_true]; rfl
  · simp only [Calculator.Divide, hv, if_true]; rfl

theorem invalid_operand_rejected_witness :
    (Float64.NaN.isFinite = false ∨ Float64.zero.isFinite = false) ∧
    serverCalculator.Divide ieee 0 () Float64.NaN Float64.zero =
      { Value := Float64.zero, Duration := 0, Operation := "Divide"
        Error := some ErrInvalidInput } :=
  ⟨by decide,
    (invalid_operand_rejected serverCalculator 0 () Float64.NaN Float64.zero
      (by decide)).2.2.2⟩

/-- C14: for every finite dividend and every configuration, Divide by a zero
of either sign gives the error `ErrDivideByZero` with the value zero, and
Divide gives `ErrDivideByZero` only when the divisor is a zero. -/
theorem Divide_by_zero {Ctx : Type} (c : Calculator) (elapsed : Int) (ctx : Ctx) :
    (∀ (s : Bool) (m : Nat) (e : Int) (t : Bool) (f : Int),
      c.Divide ieee elapsed ctx (Float64.Finite s m e) (Float64.Finite t 0 f) =
        { Value := Float64.zero, Duration := elapsed, Operation := "Divide"
          Error := some ErrDivideByZero }) ∧
    (∀ a b : Float64, (c.Divide ieee elapsed ctx a b).Error = some ErrDivideByZero →
      ∃ (t : Bool) (f : Int), b = Float64.Finite t 0 f) := by
  constructor
  · intro s m e t f
    have hz : ieee.eq (Float64.Finite t 0 f) ieee.zero = true :=
      (eq_zero_iff _).mpr ⟨t, f, rfl⟩
    simp only [Calculator.Divide, validateInput_ieee, Float64.isFinite, hz]
    rfl
  · intro a b h
    unfold Calculator.Divide at h
    split at h
    · have hne : some ErrInvalidInput ≠ some ErrDivideByZero := by decide
      exact absurd h hne
    · split at h
      · rename_i hz
        exact (eq_zero_iff b).mp hz
      · exact absurd h (finish_error_ne_divideByZero _ _ _ _ _)

theorem finish_of_finite (c : Calculator) (elapsed : Int) (operation : String)
    (result : Float64) (h : result.isFinite = true) :
    c.finish ieee elapsed operation result =
      { Value := Float64.div (Float64.Round (Float64.mul result
          (Float64.Pow10 c.MaxDecimalPlaces))) (Float64.Pow10 c.MaxDecimalPlaces)
        Duration := elapsed, Operation := operation, Error := none } := by
  simp only [Calculator.finish, validateInput_ieee, h]
  simp only [Bool.not_true, Bool.and_false]
  rfl

theorem lt_zero_of_not_finite (result : Float64) (h : result.isFinite = false) :
    Float64.lt Float64.zero result = true ↔ result = Float64.Inf false := by
  cases result with
  | NaN => simp [Float64.lt, Float64.zero]
  | Inf s => cases s <;> simp [Float64.lt, Float64.zero]
  | Finite s m e => simp [Float64.isFinite] at h

theorem finish_of_not_finite (c : Calculator) (elapsed : Int) (operation : String)
    (result : Float64) (hc : c.CheckOverflow = true) (h : result.isFinite = false) :
    c.finish ieee elapsed operation result =
      { Value := Float64.zero, Duration := elapsed, Operation := operation
        Error := some (if result = Float64.Inf false then ErrOverflow else ErrUnderflow) } := by
  have hlt := lt_zero_of_not_finite result h
  simp only [Calculator.finish, validateInput_ieee, h, hc]
  by_cases hr : result = Float64.Inf false
  · have : ieee.lt ieee.zero result = true := hlt.mpr hr
    simp only [this, hr]
    rfl
  · have : ¬ ieee.lt ieee.zero result = true := fun h2 => hr (hlt.mp h2)
    simp only [this, hr]
    rfl

theorem operands_valid (c : Calculator) (a b : Float64) (ha : a.isFinite = true)
    (hb : b.isFinite = true) :
    (!c.validateInput ieee a || !c.validateInput ieee b) = false := by
  rw [validateInput_ieee, validateInput_ieee, ha, hb]
  rfl

/-- C16: with overflow checking enabled and finite operands, when the raw
result of an operation (Divide for a divisor that is not a zero) is not finite,
the value is zero and the error is `ErrOverflow` if the raw result is the
positive infinity and `ErrUnderflow` otherwise; adding `MaxFloat64` to itself
gives Overflow, adding `-MaxFloat64` to itself gives Underflow. -/
theorem overflow_reported {Ctx : Type} (c : Calculator) (elapsed : Int) (ctx : Ctx)
    (a b : Float64) (hc : c.CheckOverflow = true) (ha : a.isFinite = true)
    (hb : b.isFinite = true) :
    ((Float64.add a b).isFinite = false →
      c.Add ieee elapsed ctx a b =
        { Value := Float64.zero, Duration := elapsed, Operation := "Add"
          Error := some (if Float64.add a b = Float64.Inf false then ErrOverflow
            else ErrUnderflow) }) ∧
    ((Float64.sub a b).isFinite = false →
      c.Subtract ieee elapsed ctx a b =
        { Value := Float64.zero, Duration := elapsed, Operation := "Subtract"
          Error := some (if Float64.sub a b = Float64.Inf false then ErrOverflow
            else ErrUnderflow) }) ∧
    ((Float64.mul a b).isFinite = false →
      c.Multiply ieee elapsed ctx a b =
        { Value := Float64.zero, Duration := elapsed, Operation := "Multiply"
          Error := some (if Float64.mul a b = Float64.Inf false then ErrOverflow
            else ErrUnderflow) }) ∧
    (Float64.eq b Float64.zero = false → (Float64.div a b).isFinite = false →
      c.Divide ieee elapsed ctx a b =
        { Value := Float64.zero, Duration := elapsed, Operation := "Divide"
          Error := some (if Float64.div a b = Float64.Inf false then ErrOverflow
            else ErrUnderflow) }) ∧
    c.Add ieee elapsed ctx Float64.MaxFloat64 Float64.MaxFloat64 =
      { Value := Float64.zero, Duration := elapsed, Operation := "Add"
        Error := some ErrOverflow } ∧
    c.Add ieee elapsed ctx (Float64.neg Float64.MaxFloat64) (Float64.neg Float64.MaxFloat64) =
      { Value := Float64.zero, Duration := elapsed, Operation := "Add"
        Error := some ErrUnderflow } := by
  have hv := operands_valid c a b ha hb
  refine ⟨?_, ?_, ?_, ?_, ?_, ?_⟩
  · intro h
    simp only [Calculator.Add, hv]
    exact finish_of_not_finite c elapsed "Add" _ hc h
  · intro h
    simp only [Calculator.Subtract, hv]
    exact finish_of_not_finite c elapsed "Subtract" _ hc h
  · intro h
    simp only [Calculator.Multiply, hv]
    exact finish_of_not_finite c elapsed "Multiply" _ hc h
  · intro hz h
    have hz2 : ieee.eq b ieee.zero = false := hz
    simp only [Calculator.Divide, hv, hz2]
    exact finish_of_not_finite c elapsed "Divide" _ hc h
  · have hmax := operands_valid c Float64.MaxFloat64 Float64.MaxFloat64 rfl rfl
    have hsum : ieee.add Float64.MaxFloat64 Float64.MaxFloat64 = Float64.Inf false := by
      decide!
    simp only [Calculator.Add, hmax, hsum]
    rw [finish_of_not_finite c elapsed "Add" (Float64.Inf false) hc rfl]
    rfl
  · have hmax := operands_valid c (Float64.neg Float64.MaxFloat64)
      (Float64.neg Float64.MaxFloat64) rfl rfl
    have hsum : ieee.add (Float64.neg Float64.MaxFloat64) (Float64.neg Float64.MaxFloat64) =
        Float64.Inf true := by decide!
    simp only [Calculator.Add, hmax, hsum]
    rw [finish_of_not_finite c elapsed "Add" (Float64.Inf true) hc rfl]
    rfl

theorem overflow_reported_witness :
    serverCalculator.CheckOverflow = true ∧ Float64.MaxFloat64.isFinite = true ∧
    serverCalculator.Add ieee 0 () Float64.MaxFloat64 Float64.MaxFloat64 =
      { Value := Float64.zero, Duration := 0, Operation := "Add", Error := some ErrOverflow } :=
  ⟨by decide, by decide,
    (overflow_reported serverCalculator 0 () Float64.MaxFloat64 Float64.MaxFloat64
      (by decide) (by decide) (by decide)).2.2.2.2.1⟩

/-- C17, the code at an input the claim covers: with the configuration of the
server (overflow checking enabled, ten decimal places) and the finite operands
`MaxFloat64` and zero, Add returns no error and the value positive infinity,
because the multiplication inside the rounding step overflows. -/
theorem rounding_overflow_unreported :
    serverCalculator.CheckOverflow = true ∧ serverCalculator.MaxDecimalPlaces = 10 ∧
    Float64.MaxFloat64.isFinite = true ∧ Float64.zero.isFinite = true ∧
    (Float64.add Float64.MaxFloat64 Float64.zero).isFinite = true ∧
    serverCalculator.Add ieee 0 () Float64.MaxFloat64 Float64.zero =
      { Value := Float64.Inf false, Duration := 0, Operation := "Add", Error := none } := by
  decide!

end Calc

/-! ## The request dispatcher -/

namespace server

theorem toResponse_inBand {F : Type} (result : Calc.CalculationResult F) :
    InBand result (toResponse result) := by
  unfold InBand toResponse
  cases h : result.Error with
  | none => exact ⟨rfl, _, rfl, rfl, rfl, by simp, by simp⟩
  | some err =>
    refine ⟨rfl, _, rfl, rfl, rfl, ?_, ?_⟩
    · simp
    · intro e he
      injection he with he
      subst he
      exact ⟨rfl, rfl⟩

theorem toResponse_failure {F : Type} (result : Calc.CalculationResult F) (e : GoError)
    (h : result.Error = some e) : FailureResponse e (toResponse result) := by
  obtain ⟨h2, resp, hresp, _, _, _, hfail⟩ := toResponse_inBand result
  exact ⟨h2, resp, hresp, hfail e h⟩

/-- C19: for all operands and every engine configuration, each of the four
handlers returns no RPC error and a response carrying the value and the tag of
the engine result; the status code is 200 with an empty message exactly when
the engine reports no error, and otherwise it is 400 and the message is the
text of the engine error. -/
theorem handlers_inBand {F Ctx : Type} (A : Arith F) (s : GRPCServer) (elapsed : Int)
    (ctx : Ctx) (req : proto.CalculationRequest F) :
    InBand (s.calculator.Add A elapsed ctx req.A req.B) (s.Add A elapsed ctx req) ∧
    InBand (s.calculator.Subtract A elapsed ctx req.A req.B) (s.Subtract A elapsed ctx req) ∧
    InBand (s.calculator.Multiply A elapsed ctx req.A req.B) (s.Multiply A elapsed ctx req) ∧
    InBand (s.calculator.Divide A elapsed ctx req.A req.B) (s.Divide A elapsed ctx req) :=
  ⟨toResponse_inBand _, toResponse_inBand _, toResponse_inBand _, toResponse_inBand _⟩

/-- C20, as stated, fails: a division by zero and an addition with a NaN
operand are different failure outcomes of the engine, and the two responses
carry the same status code, 400. -/
theorem failure_codes_coincide :
    (Calc.serverCalculator.Divide ieee 0 () Float64.one Float64.zero).Error =
      some Calc.ErrDivideByZero ∧
    (Calc.serverCalculator.Add ieee 0 () Float64.NaN Float64.one).Error =
      some Calc.ErrInvalidInput ∧
    Calc.ErrDivideByZero ≠ Calc.ErrInvalidInput ∧
    ((GRPCServer.mk Calc.serverCalculator).Divide ieee 0 ()
        { A := Float64.one, B := Float64.zero }).1.map (fun r => r.StatusCode) = some 400 ∧
    ((GRPCServer.mk Calc.serverCalculator).Add ieee 0 ()
        { A := Float64.NaN, B := Float64.one }).1.map (fun r => r.StatusCode) = some 400 := by
  decide

/-- C20, amended: for the four handlers, every failure outcome of the engine
gets the same status code, 400, and the message of the response is the text of
the engine error; the texts of the four engine errors are pairwise different,
so the outcome kind is carried by the message. -/
theorem failure_kind_in_message {F Ctx : Type} (A : Arith F) (s : GRPCServer) (elapsed : Int)
    (ctx : Ctx) (req : proto.CalculationRequest F) :
    (∀ e : GoError, (s.calculator.Add A elapsed ctx req.A req.B).Error = some e →
      FailureResponse e (s.Add A elapsed ctx req)) ∧
    (∀ e : GoError, (s.calculator.Subtract A elapsed ctx req.A req.B).Error = some e →
      FailureResponse e (s.Subtract A elapsed ctx req)) ∧
    (∀ e : GoError, (s.calculator.Multiply A elapsed ctx req.A req.B).Error = some e →
      FailureResponse e (s.Multiply A elapsed ctx req)) ∧
    (∀ e : GoError, (s.calculator.Divide A elapsed ctx req.A req.B).Error = some e →
      FailureResponse e (s.Divide A elapsed ctx req)) ∧
    [Calc.ErrInvalidInput.Error, Calc.ErrDivideByZero.Error, Calc.ErrOverflow.Error,
      Calc.ErrUnderflow.Error].Nodup :=
  ⟨fun e h => toResponse_failure _ e h, fun e h => toResponse_failure _ e h,
    fun e h => toResponse_failure _ e h, fun e h => toResponse_failure _ e h, by decide⟩

end server

/-! ## Reachability under the default policy -/

namespace auth

theorem handlerCalls_pos_precheck {Req Resp : Type} (interceptor : AuthInterceptor)
    (ctx : Context) (req : Req) (info : UnaryServerInfo)
    (handler : Context → Req → Option Resp × Option GoError)
    (h : 0 < handlerCalls (interceptor.Unary ctx req info handler).calls) :
    interceptor.isAccessible info.FullMethod RoleGuest = true := by
  cases hpre : interceptor.isAccessible info.FullMethod RoleGuest with
  | true => rfl
  | false =>
    rw [Unary_of_precheck_false interceptor ctx req info handler hpre] at h
    exact absurd h (Nat.lt_irrefl 0)

theorem index_of_unlisted (jwtManager : JWTManager) (method : String)
    (h1 : method ≠ "/calculator.Calculator/Add")
    (h2 : method ≠ "/calculator.Calculator/Subtract")
    (h3 : method ≠ "/calculator.Calculator/Multiply")
    (h4 : method ≠ "/calculator.Calculator/Divide") :
    (NewAuthInterceptor jwtManager).accessibleRoles.index method = [] := by
  have b1 : (method == "/calculator.Calculator/Add") = false := by simpa using h1
  have b2 : (method == "/calculator.Calculator/Subtract") = false := by simpa using h2
  have b3 : (method == "/calculator.Calculator/Multiply") = false := by simpa using h3
  have b4 : (method == "/calculator.Calculator/Divide") = false := by simpa using h4
  simp only [StringSliceMap.index, NewAuthInterceptor, List.lookup, b1, b2, b3, b4]
  rfl

/-- C26: under the policy of `NewAuthInterceptor`, for every peer, metadata,
token verifier, request and handler, the interceptor answers a call to Multiply
or Divide with a nil response and PermissionDenied, without any call; and for
every policy, the handler is invoked only for methods that pass the Guest
check. -/
theorem restricted_methods_unreachable {Req Resp : Type} (jwtManager : JWTManager)
    (ctx : Context) (req : Req) (handler : Context → Req → Option Resp × Option GoError) :
    (NewAuthInterceptor jwtManager).Unary ctx req
        { FullMethod := "/calculator.Calculator/Multiply" } handler =
      { resp := none
        err := some (GoError.status Code.PermissionDenied "no permission to access this RPC")
        calls := [] } ∧
    (NewAuthInterceptor jwtManager).Unary ctx req
        { FullMethod := "/calculator.Calculator/Divide" } handler =
      { resp := none
        err := some (GoError.status Code.PermissionDenied "no permission to access this RPC")
        calls := [] } ∧
    (∀ (interceptor : AuthInterceptor) (info : UnaryServerInfo),
      0 < handlerCalls (interceptor.Unary ctx req info handler).calls →
        interceptor.isAccessible info.FullMethod RoleGuest = true) := by
  refine ⟨?_, ?_, ?_⟩
  · exact Unary_of_precheck_false _ ctx req _ handler rfl
  · exact Unary_of_precheck_false _ ctx req _ handler rfl
  · intro interceptor info h
    exact handlerCalls_pos_precheck interceptor ctx req info handler h

/-- C27: under the policy of `NewAuthInterceptor`, for every method name,
access for GUEST implies access for USER, and access for USER implies access
for ADMIN. -/
theorem default_policy_hierarchy (jwtManager : JWTManager) (method : String) :
    ((NewAuthInterceptor jwtManager).isAccessible method RoleGuest = true →
      (NewAuthInterceptor jwtManager).isAccessible method RoleUser = true) ∧
    ((NewAuthInterceptor jwtManager).isAccessible method RoleUser = true →
      (NewAuthInterceptor jwtManager).isAccessible method RoleAdmin = true) := by
  by_cases h1 : method = "/calculator.Calculator/Add"
  · subst h1
    exact ⟨fun _ => rfl, fun _ => rfl⟩
  by_cases h2 : method = "/calculator.Calculator/Subtract"
  · subst h2
    exact ⟨fun _ => rfl, fun _ => rfl⟩
  by_cases h3 : method = "/calculator.Calculator/Multiply"
  · subst h3
    exact ⟨fun _ => rfl, fun _ => rfl⟩
  by_cases h4 : method = "/calculator.Calculator/Divide"
  · subst h4
    refine ⟨fun h => ?_, fun _ => rfl⟩
    have hg : (NewAuthInterceptor jwtManager).isAccessible "/calculator.Calculator/Divide"
        RoleGuest = false := rfl
    rw [hg] at h
    exact absurd h (by decide)
  have hidx := index_of_unlisted jwtManager method h1 h2 h3 h4
  exact ⟨fun _ => isAccessible_of_index_nil _ _ _ hidx,
    fun _ => isAccessible_of_index_nil _ _ _ hidx⟩

end auth

/-! ## The calculator service -/

namespace calculator

/-- C21: for each of the four handlers of the service and all operands, a
context whose `Err()` is not nil gives a nil response and the Canceled error,
whatever the arithmetic is, and a live context gives a response and no RPC
error. -/
theorem cancellation_checked {F : Type} (A : Arith F) (format : F → String)
    (ctx : CallContext) (req : proto.CalculationRequest F) :
    (ctx.Err ≠ none →
      Service.Add A ctx req =
        (none, some (GoError.status Code.Canceled "request cancelled or timed out")) ∧
      Service.Subtract A ctx req =
        (none, some (GoError.status Code.Canceled "request cancelled or timed out")) ∧
      Service.Multiply A ctx req =
        (none, some (GoError.status Code.Canceled "request cancelled or timed out")) ∧
      Service.Divide A format ctx req =
        (none, some (GoError.status Code.Canceled "request cancelled or timed out"))) ∧
    (ctx.Err = none →
      (∃ resp, Service.Add A ctx req = (some resp, none)) ∧
      (∃ resp, Service.Subtract A ctx req = (some resp, none)) ∧
      (∃ resp, Service.Multiply A ctx req = (some resp, none)) ∧
      (∃ resp, Service.Divide A format ctx req = (some resp, none))) := by
  constructor
  · intro h
    have hs : ctx.Err.isSome = true := by
      cases he : ctx.Err with
      | none => exact absurd he h
      | some e => rfl
    refine ⟨?_, ?_, ?_, ?_⟩
    · simp only [Service.Add, hs, if_true]; rfl
    · simp only [Service.Subtract, hs, if_true]; rfl
    · simp only [Service.Multiply, hs, if_true]; rfl
    · simp only [Service.Divide, hs, if_true]; rfl
  · intro h
    have hs : ctx.Err.isSome = false := by rw [h]; rfl
    refine ⟨?_, ?_, ?_, ?_⟩
    · simp only [Service.Add, hs, Bool.false_eq_true, if_false]
      split <;> exact ⟨_, rfl⟩
    · simp only [Service.Subtract, hs, Bool.false_eq_true, if_false]
      split <;> exact ⟨_, rfl⟩
    · simp only [Service.Multiply, hs, Bool.false_eq_true, if_false]
      split <;> exact ⟨_, rfl⟩
    · simp only [Service.Divide, hs, Bool.false_eq_true, if_false]
      split
      · exact ⟨_, rfl⟩
      · split <;> exact ⟨_, rfl⟩

/-- C24, the code at an input the claim covers: for the request with operands
NaN and 1, `Validate` returns an error, yet `Service.Add` with a live context
answers with status code 0 and the result NaN. -/
theorem invalid_operand_accepted :
    Validate ieee { A := Float64.NaN, B := Float64.one } =
      some (GoError.plain "first operand is NaN or infinity") ∧
    Service.Add ieee (CallContext.mk none) { A := Float64.NaN, B := Float64.one } =
      (some { Result := Float64.NaN, StatusCode := 0, ErrorMessage := ""
              Operation := "ADD", DurationNs := 0 }, none) := by
  decide

end calculator

/-! ## The dispatcher and cancellation -/

namespace server

/-- C22, the code at an input the claim covers: with a cancelled context,
`GRPCServer.Add` returns no RPC error and the response built from the result
of the engine, here the sum of 1 and 2 with status code 200. -/
theorem cancelled_context_ignored :
    (CallContext.mk (some (GoError.plain "context canceled"))).Err ≠ none ∧
    (GRPCServer.mk Calc.serverCalculator).Add ieee 0
        (CallContext.mk (some (GoError.plain "context canceled")))
        { A := Float64.ofNat 1, B := Float64.ofNat 2 } =
      (some { Result := Float64.ofNat 3, StatusCode := 200, ErrorMessage := ""
              Operation := "Add", DurationNs := 0 }, none) ∧
    (GRPCServer.mk Calc.serverCalculator).Add ieee 0
        (CallContext.mk (some (GoError.plain "context canceled")))
        { A := Float64.ofNat 1, B := Float64.ofNat 2 } =
      toResponse (Calc.serverCalculator.Add ieee 0 ()
        (Float64.ofNat 1) (Float64.ofNat 2)) := by
  decide!

theorem finish_Operation {F : Type} (A : Arith F) (c : Calc.Calculator) (elapsed : Int)
    (operation : String) (result : F) :
    (c.finish A elapsed operation result).Operation = operation := by
  unfold Calc.Calculator.finish
  split <;> rfl

theorem engine_tags {F Ctx : Type} (A : Arith F) (c : Calc.Calculator) (elapsed : Int)
    (ctx : Ctx) (a b : F) :
    (c.Add A elapsed ctx a b).Operation = "Add" ∧
    (c.Subtract A elapsed ctx a b).Operation = "Subtract" ∧
    (c.Multiply A elapsed ctx a b).Operation = "Multiply" ∧
    (c.Divide A elapsed ctx a b).Operation = "Divide" := by
  refine ⟨?_, ?_, ?_, ?_⟩
  · unfold Calc.Calculator.Add
    split
    · rfl
    · exact finish_Operation _ _ _ _ _
  · unfold Calc.Calculator.Subtract
    split
    · rfl
    · exact finish_Operation _ _ _ _ _
  · unfold Calc.Calculator.Multiply
    split
    · rfl
    · exact finish_Operation _ _ _ _ _
  · unfold Calc.Calculator.Divide
    split
    · rfl
    · split
      · rfl
      · exact finish_Operation _ _ _ _ _

theorem toResponse_Operation {F : Type} (result : Calc.CalculationResult F)
    (resp : proto.CalculationResponse F) (h : (toResponse result).1 = some resp) :
    resp.Operation = result.Operation := by
  obtain ⟨_, resp2, hresp, _, hop, _⟩ := toResponse_inBand result
  rw [hresp] at h
  injection h with h
  rw [← h]
  exact hop

/-- C23, as stated, fails: the Operation constant ADD is not a key of the
access policy, whose key for the operation is the method name, and the
operation field of a `GRPCServer` response is the engine tag `Add`, a string
different from the constant, while the service answers with the constant. -/
theorem operation_names_differ :
    (auth.NewAuthInterceptor auth.sampleJWTManager).accessibleRoles.lookup auth.OpAdd = none ∧
    (auth.NewAuthInterceptor auth.sampleJWTManager).accessibleRoles.lookup
      "/calculator.Calculator/Add" = some [auth.RoleAdmin, auth.RoleUser, auth.RoleGuest] ∧
    ((GRPCServer.mk Calc.serverCalculator).Add ieee 0 ()
        { A := Float64.ofNat 1, B := Float64.ofNat 2 }).1.map (fun r => r.Operation) =
      some "Add" ∧
    "Add" ≠ auth.OpAdd ∧
    (calculator.Service.Add ieee (CallContext.mk none)
        { A := Float64.ofNat 1, B := Float64.ofNat 2 }).1.map (fun r => r.Operation) =
      some auth.OpAdd := by
  decide!

/-- C23, amended: the Operation constants of `auth` and of `calculator` are
the same strings and are the operation field of every response of the
service; the operation field of every `GRPCServer` response is the engine tag
`Add`, `Subtract`, `Multiply` or `Divide`; and the access policy of
`NewAuthInterceptor` is keyed by the four method names. -/
theorem operation_names :
    (auth.OpAdd = calculator.OpAdd ∧ auth.OpSubtract = calculator.OpSubtract ∧
      auth.OpMultiply = calculator.OpMultiply ∧ auth.OpDivide = calculator.OpDivide) ∧
    (∀ (F : Type) (A : Arith F) (format : F → String) (ctx : CallContext)
        (req : proto.CalculationRequest F) (resp : proto.CalculationResponse F),
      ((calculator.Service.Add A ctx req).1 = some resp → resp.Operation = "ADD") ∧
      ((calculator.Service.Subtract A ctx req).1 = some resp → resp.Operation = "SUBTRACT") ∧
      ((calculator.Service.Multiply A ctx req).1 = some resp → resp.Operation = "MULTIPLY") ∧
      ((calculator.Service.Divide A format ctx req).1 = some resp →
        resp.Operation = "DIVIDE")) ∧
    (∀ (F Ctx : Type) (A : Arith F) (s : GRPCServer) (elapsed : Int) (ctx : Ctx)
        (req : proto.CalculationRequest F) (resp : proto.CalculationResponse F),
      ((s.Add A elapsed ctx req).1 = some resp → resp.Operation = "Add") ∧
      ((s.Subtract A elapsed ctx req).1 = some resp → resp.Operation = "Subtract") ∧
      ((s.Multiply A elapsed ctx req).1 = some resp → resp.Operation = "Multiply") ∧
      ((s.Divide A elapsed ctx req).1 = some resp → resp.Operation = "Divide")) ∧
    (∀ jwtManager : auth.JWTManager,
      (auth.NewAuthInterceptor jwtManager).accessibleRoles.map Prod.fst =
        ["/calculator.Calculator/Add", "/calculator.Calculator/Subtract",
          "/calculator.Calculator/Multiply", "/calculator.Calculator/Divide"]) := by
  refine ⟨⟨rfl, rfl, rfl, rfl⟩, ?_, ?_, fun _ => rfl⟩
  · intro F A format ctx req resp
    refine ⟨?_, ?_, ?_, ?_⟩
    · intro h
      unfold calculator.Service.Add at h
      split at h
      · exact Option.noConfusion h
      · split at h <;> (injection h with h; rw [← h]; rfl)
    · intro h
      unfold calculator.Service.Subtract at h
      split at h
      · exact Option.noConfusion h
      · split at h <;> (injection h with h; rw [← h]; rfl)
    · intro h
      unfold calculator.Service.Multiply at h
      split at h
      · exact Option.noConfusion h
      · split at h <;> (injection h with h; rw [← h]; rfl)
    · intro h
      unfold calculator.Service.Divide at h
      split at h
      · exact Option.noConfusion h
      · split at h
        · injection h with h; rw [← h]; rfl
        · split at h <;> (injection h with h; rw [← h]; rfl)
  · intro F Ctx A s elapsed ctx req resp
    have ht := engine_tags A s.calculator elapsed ctx req.A req.B
    refine ⟨?_, ?_, ?_, ?_⟩
    · intro h
      rw [toResponse_Operation _ resp h]
      exact ht.1
    · intro h
      rw [toResponse_Operation _ resp h]
      exact ht.2.1
    · intro h
      rw [toResponse_Operation _ resp h]
      exact ht.2.2.1
    · intro h
      rw [toResponse_Operation _ resp h]
      exact ht.2.2.2

end server

/-! ## Division by zero seen from the client -/

namespace client

theorem engine_Divide_zero_divisor {Ctx : Type} (c : Calc.Calculator) (elapsed : Int)
    (ctx : Ctx) (s : Bool) (m : Nat) (e : Int) (t : Bool) (f : Int) :
    c.Divide ieee elapsed ctx (Float64.Finite s m e) (Float64.Finite t 0 f) =
      { Value := Float64.zero, Duration := elapsed, Operation := "Divide"
        Error := some Calc.ErrDivideByZero } := by
  have hz : ieee.eq (Float64.Finite t 0 f) ieee.zero = true :=
    (Calc.eq_zero_iff _).mpr ⟨t, f, rfl⟩
  simp only [Calc.Calculator.Divide, Calc.validateInput_ieee, Float64.isFinite, hz]
  rfl

theorem service_Divide_zero_divisor (format : Float64 → String) (ctx : CallContext)
    (hctx : ctx.Err = none) (a : Float64) (t : Bool) (f : Int) :
    calculator.Service.Divide ieee format ctx { A := a, B := Float64.Finite t 0 f } =
      (some { Result := Float64.zero, StatusCode := 2, ErrorMessage := "division by zero"
              Operation := "DIVIDE", DurationNs := 0 }, none) := by
  have hz : ieee.eq (Float64.Finite t 0 f) ieee.zero = true :=
    (Calc.eq_zero_iff _).mpr ⟨t, f, rfl⟩
  have hs : ctx.Err.isSome = false := by rw [hctx]; rfl
  simp only [calculator.Service.Divide, hs, hz, Bool.false_eq_true, if_false, if_true]
  rfl

/-- C25: for every finite dividend and a divisor zero of either sign, the
client method Divide, applied to what `GRPCServer.Divide` answers, returns the
value 0 and an error; applied to what `Service.Divide` answers, it returns the
value 0 and an error as well, whether the context of the service is live or
not. -/
theorem divide_by_zero_fails {Ctx : Type} (srv : server.GRPCServer) (elapsed : Int)
    (ctx : Ctx) (format : Float64 → String) (cctx : CallContext)
    (s : Bool) (m : Nat) (e : Int) (t : Bool) (f : Int) :
    LlamaCalcClient.Divide ieee (fun req => deliver (srv.Divide ieee elapsed ctx req))
        (Float64.Finite s m e) (Float64.Finite t 0 f) =
      (Float64.zero, some (GoError.plain "error code 400: division by zero")) ∧
    (cctx.Err = none →
      LlamaCalcClient.Divide ieee
          (fun req => deliver (calculator.Service.Divide ieee format cctx req))
          (Float64.Finite s m e) (Float64.Finite t 0 f) =
        (Float64.zero, some (GoError.plain "error code 2: division by zero"))) ∧
    (∃ err : GoError,
      LlamaCalcClient.Divide ieee
          (fun req => deliver (calculator.Service.Divide ieee format cctx req))
          (Float64.Finite s m e) (Float64.Finite t 0 f) =
        (Float64.zero, some err)) := by
  have hlive : cctx.Err = none →
      LlamaCalcClient.Divide ieee
          (fun req => deliver (calculator.Service.Divide ieee format cctx req))
          (Float64.Finite s m e) (Float64.Finite t 0 f) =
        (Float64.zero, some (GoError.plain "error code 2: division by zero")) := by
    intro hctx
    simp only [LlamaCalcClient.Divide,
      service_Divide_zero_divisor format cctx hctx (Float64.Finite s m e) t f, deliver]
    rfl
  refine ⟨?_, hlive, ?_⟩
  · simp only [LlamaCalcClient.Divide, server.GRPCServer.Divide,
      engine_Divide_zero_divisor srv.calculator elapsed ctx s m e t f, server.toResponse,
      deliver]
    rfl
  · cases hctx : cctx.Err with
    | none => exact ⟨_, hlive hctx⟩
    | some e0 =>
      have hs : cctx.Err.isSome = true := by rw [hctx]; rfl
      refine ⟨GoError.plain ("error calling Divide: " ++ calculator.cancelled.Error), ?_⟩
      simp only [LlamaCalcClient.Divide, calculator.Service.Divide, hs, if_true,
        calculator.cancelled, deliver]
      rfl

end client

/-! ## The metrics interceptor -/

namespace monitoring

/-- C28, the code at an input the claim covers: the addition of 1 and 2 by
`GRPCServer.Add` succeeds (no engine error, status code 200), and the metrics
interceptor wrapped around the handler records an error observation, with
code 200, after the request and the response time; the pair of the handler is
returned as it is. -/
theorem success_recorded_as_error :
    (Calc.serverCalculator.Add ieee 0 () (Float64.ofNat 1) (Float64.ofNat 2)).Error = none ∧
    MetricsInterceptor 7 ()
        (proto.CalculationRequest.mk (Float64.ofNat 1) (Float64.ofNat 2))
        { FullMethod := "/calculator.Calculator/Add" }
        (fun ctx req =>
          asResponse ((server.GRPCServer.mk Calc.serverCalculator).Add ieee 0 ctx req)) =
      ((some (Response.calculation
          { Result := Float64.ofNat 3, StatusCode := 200, ErrorMessage := ""
            Operation := "Add", DurationNs := 0 }), none),
        [Observation.Request "/calculator.Calculator/Add" "ADD",
          Observation.ResponseTime "/calculator.Calculator/Add" "ADD" 7,
          Observation.Error "/calculator.Calculator/Add" "ADD" 200]) := by
  decide!

end monitoring

/-! ## Algebraic properties of the engine -/

namespace Calc

theorem Float64_add_comm (a b : Float64) : Float64.add a b = Float64.add b a := by
  cases a with
  | NaN => cases b <;> rfl
  | Inf s =>
    cases b with
    | NaN => rfl
    | Inf t =>
      simp only [Float64.add]
      by_cases h : s = t
      · subst h
        rfl
      · have h2 : ¬ t = s := fun e => h e.symm
        simp [h, h2]
    | Finite t n f => rfl
  | Finite s m e =>
    cases b with
    | NaN => rfl
    | Inf t => rfl
    | Finite t n f =>
      simp only [Float64.add]
      rw [min_comm f e, add_comm (Float64.scaled t n f (min e f)), Bool.and_comm t s]

theorem Float64_mul_comm (a b : Float64) : Float64.mul a b = Float64.mul b a := by
  cases a with
  | NaN => cases b <;> rfl
  | Inf s =>
    cases b with
    | NaN => rfl
    | Inf t =>
      simp only [Float64.mul]
      rw [Bool.xor_comm]
    | Finite t n f =>
      simp only [Float64.mul]
      rw [Bool.xor_comm]
  | Finite s m e =>
    cases b with
    | NaN => rfl
    | Inf t =>
      simp only [Float64.mul]
      rw [Bool.xor_comm]
    | Finite t n f =>
      simp only [Float64.mul]
      rw [Bool.xor_comm t s, Nat.mul_comm n m, add_comm f e]

theorem finish_outcome {F : Type} (A : Arith F) (c : Calculator) (e1 e2 : Int)
    (operation : String) (result : F) :
    (c.finish A e1 operation result).Value = (c.finish A e2 operation result).Value ∧
    (c.finish A e1 operation result).Error = (c.finish A e2 operation result).Error ∧
    (c.finish A e1 operation result).Operation =
      (c.finish A e2 operation result).Operation := by
  unfold Calculator.finish
  split <;> exact ⟨rfl, rfl, rfl⟩

/-- C29: for every configuration and all operands, finite or not, Add of
`a` and `b` and Add of `b` and `a` return the same value, error and operation
tag, whatever the two durations are, and likewise Multiply. -/
theorem Add_Multiply_commutative {Ctx : Type} (c : Calculator) (e1 e2 : Int)
    (ctx1 ctx2 : Ctx) (a b : Float64) :
    ((c.Add ieee e1 ctx1 a b).Value = (c.Add ieee e2 ctx2 b a).Value ∧
      (c.Add ieee e1 ctx1 a b).Error = (c.Add ieee e2 ctx2 b a).Error ∧
      (c.Add ieee e1 ctx1 a b).Operation = (c.Add ieee e2 ctx2 b a).Operation) ∧
    ((c.Multiply ieee e1 ctx1 a b).Value = (c.Multiply ieee e2 ctx2 b a).Value ∧
      (c.Multiply ieee e1 ctx1 a b).Error = (c.Multiply ieee e2 ctx2 b a).Error ∧
      (c.Multiply ieee e1 ctx1 a b).Operation = (c.Multiply ieee e2 ctx2 b a).Operation) := by
  have hadd : ieee.add b a = ieee.add a b := Float64_add_comm b a
  have hmul : ieee.mul b a = ieee.mul a b := Float64_mul_comm b a
  have hor : (!c.validateInput ieee b || !c.validateInput ieee a) =
      (!c.validateInput ieee a || !c.validateInput ieee b) := Bool.or_comm _ _
  constructor
  · simp only [Calculator.Add, hadd, hor]
    split
    · exact ⟨rfl, rfl, rfl⟩
    · exact finish_outcome ieee c e1 e2 "Add" _
  · simp only [Calculator.Multiply, hmul, hor]
    split
    · exact ⟨rfl, rfl, rfl⟩
    · exact finish_outcome ieee c e1 e2 "Multiply" _

/-- C15, the code at an input the claim covers: with the configuration of the
server, the finite operands `MaxFloat64` and zero have the finite sum
`MaxFloat64`, an integer, which `math.Round` leaves as it is; Add returns no
error and the value positive infinity instead of that sum. -/
theorem Add_value_not_rounded_sum :
    Float64.MaxFloat64.isFinite = true ∧ Float64.zero.isFinite = true ∧
    Float64.add Float64.MaxFloat64 Float64.zero = Float64.MaxFloat64 ∧
    Float64.Round Float64.MaxFloat64 = Float64.MaxFloat64 ∧
    (serverCalculator.Add ieee 0 () Float64.MaxFloat64 Float64.zero).Error = none ∧
    (serverCalculator.Add ieee 0 () Float64.MaxFloat64 Float64.zero).Value =
      Float64.Inf false := by
  decide!

end Calc

/-! ## The overflow pre-check of the service in binary64 arithmetic -/

namespace calculator

/-- C18, the code at an input the claim covers: for the finite operands
`A = 3 * 2^970` and `B = (2^53 - 2) * 2^971` the difference `MaxFloat64 - A`
rounds to `B`, so the first comparison of the pre-check is false, the sum
overflows, and `Service.Add` with a live context answers with status code 0
and the result positive infinity. -/
theorem Add_overflow_missed :
    Float64.lt Float64.zero (Float64.Finite false (3 * 2 ^ 51) 919) = true ∧
    Float64.sub Float64.MaxFloat64 (Float64.Finite false (3 * 2 ^ 51) 919) =
      Float64.Finite false (2 ^ 53 - 2) 971 ∧
    Float64.add (Float64.Finite false (3 * 2 ^ 51) 919)
      (Float64.Finite false (2 ^ 53 - 2) 971) = Float64.Inf false ∧
    Service.Add ieee (CallContext.mk none)
        { A := Float64.Finite false (3 * 2 ^ 51) 919
          B := Float64.Finite false (2 ^ 53 - 2) 971 } =
      (some { Result := Float64.Inf false, StatusCode := 0, ErrorMessage := ""
              Operation := "ADD", DurationNs := 0 }, none) := by
  decide!

end calculator

/-! ## Rounding to decimal places in binary64 arithmetic -/

namespace Calc

theorem roundNearestEven_unfold (s : Bool) (num den : Nat) :
    Float64.roundNearestEven s num den =
      if num = 0 then Float64.Finite s 0 (-1074)
      else Float64.roundAt s num den (max (Float64.ratioLog2 num den - 52) (-1074)) := rfl

theorem log2Fuel_spec : ∀ (fuel n : Nat), n ≤ fuel → 0 < n →
    2 ^ Float64.log2Fuel fuel n ≤ n ∧ n < 2 ^ (Float64.log2Fuel fuel n + 1)
  | 0, n, h, hn => by omega
  | fuel + 1, n, h, hn => by
    unfold Float64.log2Fuel
    split
    · have ih := log2Fuel_spec fuel (n / 2) (by omega) (by omega)
      rw [pow_succ] at ih
      rw [pow_succ, pow_succ, pow_succ]
      constructor <;> omega
    · simp
      omega

theorem log2_spec (n : Nat) (hn : 0 < n) :
    2 ^ Float64.log2 n ≤ n ∧ n < 2 ^ (Float64.log2 n + 1) :=
  log2Fuel_spec n n (Nat.le_refl n) hn

theorem pow2_cast (e : Int) :
    (Float64.pow2 e : ℚ) = (2 : ℚ) ^ e * (Float64.pow2 (-e) : ℚ) := by
  obtain ⟨n, hn | hn⟩ := Int.eq_nat_or_neg e
  · subst hn
    simp [Float64.pow2]
  · subst hn
    simp [Float64.pow2]

theorem pow2_cast_pos (e : Int) : (0 : ℚ) < (Float64.pow2 e : ℚ) := by
  have := pow2_pos e
  exact_mod_cast this

theorem ratioLog2_spec (num den : Nat) (hnum : 0 < num) (hden : 0 < den) :
    (2 : ℚ) ^ Float64.ratioLog2 num den ≤ (num : ℚ) / den ∧
      (num : ℚ) / den < (2 : ℚ) ^ (Float64.ratioLog2 num den + 1) := by
  have hdq : (0 : ℚ) < den := by exact_mod_cast hden
  obtain ⟨ha1, ha2⟩ := log2_spec num hnum
  obtain ⟨hb1, hb2⟩ := log2_spec den hden
  have ha1q : (2 : ℚ) ^ (Float64.log2 num : Int) ≤ num := by
    rw [zpow_natCast]; exact_mod_cast ha1
  have ha2q : (num : ℚ) < (2 : ℚ) ^ ((Float64.log2 num : Int) + 1) := by
    have : ((Float64.log2 num : Int) + 1) = ((Float64.log2 num + 1 : Nat) : Int) := by
      push_cast; rfl
    rw [this, zpow_natCast]; exact_mod_cast ha2
  have hb1q : (2 : ℚ) ^ (Float64.log2 den : Int) ≤ den := by
    rw [zpow_natCast]; exact_mod_cast hb1
  have hb2q : (den : ℚ) < (2 : ℚ) ^ ((Float64.log2 den : Int) + 1) := by
    have : ((Float64.log2 den : Int) + 1) = ((Float64.log2 den + 1 : Nat) : Int) := by
      push_cast; rfl
    rw [this, zpow_natCast]; exact_mod_cast hb2
  have h2 : (2 : ℚ) ≠ 0 := by norm_num
  generalize hka : (Float64.log2 num : Int) = a at ha1q ha2q
  generalize hk : (Float64.log2 den : Int) = b at hb1q hb2q
  have hupper : (num : ℚ) / den < (2 : ℚ) ^ (a - b + 1) := by
    rw [div_lt_iff₀ hdq]
    have hpos : (0 : ℚ) < (2 : ℚ) ^ (a - b + 1) := by positivity
    calc (num : ℚ) < (2 : ℚ) ^ (a + 1) := ha2q
      _ = (2 : ℚ) ^ (a - b + 1) * (2 : ℚ) ^ b := by
        rw [← zpow_add₀ h2]; congr 1; ring
      _ ≤ (2 : ℚ) ^ (a - b + 1) * den := by
        exact mul_le_mul_of_nonneg_left hb1q hpos.le
  have hlower : (2 : ℚ) ^ (a - b - 1) < (num : ℚ) / den := by
    rw [lt_div_iff₀ hdq]
    have hpos : (0 : ℚ) < (2 : ℚ) ^ (a - b - 1) := by positivity
    calc (2 : ℚ) ^ (a - b - 1) * den < (2 : ℚ) ^ (a - b - 1) * (2 : ℚ) ^ (b + 1) := by
          exact mul_lt_mul_of_pos_left hb2q hpos
      _ = (2 : ℚ) ^ a := by
        rw [← zpow_add₀ h2]; congr 1; ring
      _ ≤ num := ha1q
  have hcheck : (den * Float64.pow2 (a - b) ≤ num * Float64.pow2 (-(a - b))) ↔
      (2 : ℚ) ^ (a - b) ≤ (num : ℚ) / den := by
    rw [le_div_iff₀ hdq]
    have hP := pow2_cast_pos (-(a - b))
    have hc := pow2_cast (a - b)
    constructor
    · intro h
      have hq : ((den * Float64.pow2 (a - b) : Nat) : ℚ) ≤
          ((num * Float64.pow2 (-(a - b)) : Nat) : ℚ) := by exact_mod_cast h
      push_cast at hq
      rw [hc] at hq
      have : (2 : ℚ) ^ (a - b) * den * (Float64.pow2 (-(a - b)) : ℚ) ≤
          num * (Float64.pow2 (-(a - b)) : ℚ) := by linarith
      exact le_of_mul_le_mul_right this hP
    · intro h
      have hq : ((den * Float64.pow2 (a - b) : Nat) : ℚ) ≤
          ((num * Float64.pow2 (-(a - b)) : Nat) : ℚ) := by
        push_cast
        rw [hc]
        have := mul_le_mul_of_nonneg_right h hP.le
        linarith
      exact_mod_cast hq
  unfold Float64.ratioLog2
  rw [hka, hk]
  split
  · rename_i h
    exact ⟨hcheck.mp h, hupper⟩
  · rename_i h
    have hlt : (num : ℚ) / den < (2 : ℚ) ^ (a - b) := by
      by_contra hge
      exact h (hcheck.mpr (not_lt.mp hge))
    refine ⟨hlower.le, ?_⟩
    have : a - b - 1 + 1 = a - b := by ring
    rw [this]
    exact hlt

theorem zpow_bracket_unique (r : ℚ) (x y : Int) (hx1 : (2 : ℚ) ^ x ≤ r)
    (hx2 : r < (2 : ℚ) ^ (x + 1)) (hy1 : (2 : ℚ) ^ y ≤ r) (hy2 : r < (2 : ℚ) ^ (y + 1)) :
    x = y := by
  have h1 : (2 : ℚ) ^ x < (2 : ℚ) ^ (y + 1) := lt_of_le_of_lt hx1 hy2
  have h2 : (2 : ℚ) ^ y < (2 : ℚ) ^ (x + 1) := lt_of_le_of_lt hy1 hx2
  rw [zpow_lt_zpow_iff_right₀ (by norm_num : (1 : ℚ) < 2)] at h1 h2
  omega

theorem roundAt_exact (s : Bool) (num den m : Nat) (e : Int) (hden : 0 < den)
    (hm : m < 2 ^ 53) (he : e ≤ 971) (hval : (num : ℚ) / den = (m : ℚ) * (2 : ℚ) ^ e) :
    Float64.roundAt s num den e = Float64.Finite s m e := by
  have hdq : (0 : ℚ) < den := by exact_mod_cast hden
  have hd : 0 < den * Float64.pow2 e := Nat.mul_pos hden (pow2_pos e)
  have hnum : (num : ℚ) = (m : ℚ) * (2 : ℚ) ^ e * den := by
    rw [div_eq_iff hdq.ne'] at hval
    exact hval
  have hn : num * Float64.pow2 (-e) = m * (den * Float64.pow2 e) := by
    have hq : ((num * Float64.pow2 (-e) : Nat) : ℚ) =
        ((m * (den * Float64.pow2 e) : Nat) : ℚ) := by
      push_cast
      rw [hnum, pow2_cast e]
      ring
    exact_mod_cast hq
  unfold Float64.roundAt
  rw [hn]
  generalize den * Float64.pow2 e = d at hd
  have hdiv : m * d / d = m := Nat.mul_div_cancel m hd
  have hmod : m * d % d = 0 := Nat.mul_mod_left m d
  have hne : ¬ (d < 2 * 0 ∨ (2 * 0 = d ∧ m % 2 = 1)) := by omega
  rw [hdiv, hmod]
  simp only [hne, if_false]
  have hm2 : ¬ m = 2 ^ 53 := by omega
  have he2 : ¬ (971 : Int) < e := by omega
  simp only [hm2, he2, if_false]

theorem wellFormed_iff (s : Bool) (m : Nat) (e : Int) :
    (Float64.Finite s m e).isWellFormed = true ↔
      m < 2 ^ 53 ∧ -1074 ≤ e ∧ e ≤ 971 ∧ (2 ^ 52 ≤ m ∨ e = -1074) := by
  simp [Float64.isWellFormed, and_assoc]

theorem roundNearestEven_exact (s : Bool) (num den m : Nat) (e : Int) (hden : 0 < den)
    (hwf : (Float64.Finite s m e).isWellFormed = true)
    (hval : (num : ℚ) / den = (m : ℚ) * (2 : ℚ) ^ e) :
    Float64.roundNearestEven s num den = Float64.Finite s m e := by
  obtain ⟨hm, he1, he2, hnorm⟩ := (wellFormed_iff s m e).mp hwf
  have hdq : (0 : ℚ) < den := by exact_mod_cast hden
  have h2e : (0 : ℚ) < (2 : ℚ) ^ e := by positivity
  rw [roundNearestEven_unfold]
  by_cases hnum : num = 0
  · rw [if_pos hnum]
    subst hnum
    have hm0 : (m : ℚ) = 0 := by
      have : (m : ℚ) * (2 : ℚ) ^ e = 0 := by rw [← hval]; simp
      rcases mul_eq_zero.mp this with h | h
      · exact h
      · exact absurd h h2e.ne'
    have hm0n : m = 0 := by exact_mod_cast hm0
    subst hm0n
    rcases hnorm with h | h
    · omega
    · rw [h]
  · rw [if_neg hnum]
    have hnpos : 0 < num := Nat.pos_of_ne_zero hnum
    obtain ⟨hl1, hl2⟩ := ratioLog2_spec num den hnpos hden
    rw [hval] at hl1 hl2
    have h2 : (2 : ℚ) ≠ 0 := by norm_num
    have hmq : (m : ℚ) < (2 : ℚ) ^ (53 : Int) := by
      have : ((m : Nat) : ℚ) < ((2 ^ 53 : Nat) : ℚ) := by exact_mod_cast hm
      rw [show ((2 : ℚ) ^ (53 : Int)) = ((2 ^ 53 : Nat) : ℚ) by norm_num]
      exact this
    have hexp : max (Float64.ratioLog2 num den - 52) (-1074) = e := by
      by_cases hn52 : 2 ^ 52 ≤ m
      · have hmq2 : (2 : ℚ) ^ (52 : Int) ≤ (m : ℚ) := by
          have : ((2 ^ 52 : Nat) : ℚ) ≤ ((m : Nat) : ℚ) := by exact_mod_cast hn52
          rw [show ((2 : ℚ) ^ (52 : Int)) = ((2 ^ 52 : Nat) : ℚ) by norm_num]
          exact this
        have hy1 : (2 : ℚ) ^ (52 + e) ≤ (m : ℚ) * (2 : ℚ) ^ e := by
          rw [zpow_add₀ h2]
          exact mul_le_mul_of_nonneg_right hmq2 h2e.le
        have hy2 : (m : ℚ) * (2 : ℚ) ^ e < (2 : ℚ) ^ (52 + e + 1) := by
          have : (52 : Int) + e + 1 = 53 + e := by ring
          rw [this, zpow_add₀ h2]
          exact mul_lt_mul_of_pos_right hmq h2e
        have := zpow_bracket_unique _ _ _ hl1 hl2 hy1 hy2
        rw [this]
        omega
      · have he : e = -1074 := by
          rcases hnorm with h | h
          · exact absurd h hn52
          · exact h
        have hmq3 : (m : ℚ) < (2 : ℚ) ^ (52 : Int) := by
          have : ((m : Nat) : ℚ) < ((2 ^ 52 : Nat) : ℚ) := by
            exact_mod_cast (Nat.lt_of_not_le hn52)
          rw [show ((2 : ℚ) ^ (52 : Int)) = ((2 ^ 52 : Nat) : ℚ) by norm_num]
          exact this
        have hlt : (2 : ℚ) ^ Float64.ratioLog2 num den < (2 : ℚ) ^ (52 + e) := by
          rw [zpow_add₀ h2]
          exact lt_of_le_of_lt hl1 (mul_lt_mul_of_pos_right hmq3 h2e)
        rw [zpow_lt_zpow_iff_right₀ (by norm_num : (1 : ℚ) < 2)] at hlt
        omega
    rw [hexp]
    exact roundAt_exact s num den m e hden hm he2 hval

theorem pow2_ratio (x : Int) :
    (Float64.pow2 x : ℚ) / (Float64.pow2 (-x) : ℚ) = (2 : ℚ) ^ x := by
  rw [pow2_cast x, mul_div_assoc, div_self (pow2_cast_pos (-x)).ne', mul_one]

theorem pow2_of_nonneg (x : Int) (h : 0 ≤ x) : (Float64.pow2 x : ℚ) = (2 : ℚ) ^ x := by
  obtain ⟨n, rfl⟩ := Int.eq_ofNat_of_zero_le h
  simp [Float64.pow2]

theorem pow2_of_nonpos (x : Int) (h : x ≤ 0) : Float64.pow2 x = 1 := by
  unfold Float64.pow2
  rw [Int.toNat_of_nonpos h]
  rfl

theorem mul_one_of_wellFormed (s : Bool) (m : Nat) (e : Int)
    (hwf : (Float64.Finite s m e).isWellFormed = true) :
    Float64.mul (Float64.Finite s m e) Float64.one = Float64.Finite s m e := by
  show Float64.roundNearestEven (xor s false) (m * 2 ^ 52 * Float64.pow2 (e + -52))
    (Float64.pow2 (-(e + -52))) = Float64.Finite s m e
  rw [Bool.xor_false]
  apply roundNearestEven_exact s _ _ m e (pow2_pos _) hwf
  push_cast
  rw [mul_div_assoc, pow2_ratio, mul_assoc]
  have h52 : (4503599627370496 : ℚ) = (2 : ℚ) ^ (52 : Int) := by norm_num
  rw [h52, ← zpow_add₀ (by norm_num : (2 : ℚ) ≠ 0)]
  congr 2
  ring

theorem div_one_of_wellFormed (s : Bool) (m : Nat) (e : Int)
    (hwf : (Float64.Finite s m e).isWellFormed = true) :
    Float64.div (Float64.Finite s m e) Float64.one = Float64.Finite s m e := by
  show (if 2 ^ 52 = 0 then (if m = 0 then Float64.NaN else Float64.Inf (xor s false))
    else Float64.roundNearestEven (xor s false) (m * Float64.pow2 (e - -52))
      (2 ^ 52 * Float64.pow2 (-52 - e))) = Float64.Finite s m e
  rw [if_neg (by norm_num), Bool.xor_false]
  have hpos : 0 < 2 ^ 52 * Float64.pow2 (-52 - e) := Nat.mul_pos (by norm_num) (pow2_pos _)
  apply roundNearestEven_exact s _ _ m e hpos hwf
  have hneg : (-52 - e) = -(e - -52) := by ring
  rw [hneg]
  push_cast
  rw [mul_div_assoc, div_mul_eq_div_div_swap, pow2_ratio]
  have h52 : (4503599627370496 : ℚ) = (2 : ℚ) ^ (52 : Int) := by norm_num
  rw [h52, ← zpow_sub₀ (by norm_num : (2 : ℚ) ≠ 0)]
  congr 2
  ring

theorem zpow_of_neg (e : Int) (h : e ≤ 0) :
    (2 : ℚ) ^ e * (Float64.pow2 (-e) : ℚ) = 1 := by
  have h1 := pow2_cast e
  rw [pow2_of_nonpos e h] at h1
  rw [← h1]
  norm_num

theorem pow2_succ (e : Int) (h : e < 0) :
    Float64.pow2 (-e) = 2 * Float64.pow2 (-e - 1) := by
  obtain ⟨k, hk⟩ : ∃ k : Nat, -e = (k : Int) + 1 :=
    ⟨(-e - 1).toNat, by rw [Int.toNat_of_nonneg (by omega)]; ring⟩
  have h1 : (-e).toNat = k + 1 := by rw [hk]; rfl
  have h2 : (-e - 1).toNat = k := by rw [hk]; simp
  unfold Float64.pow2
  rw [h1, h2, pow_succ]
  ring

theorem roundNearestEven_nat (s : Bool) (N : Nat) (hN : N < 2 ^ 53) :
    ∃ (m : Nat) (e : Int), Float64.roundNearestEven s N 1 = Float64.Finite s m e ∧
      (Float64.Finite s m e).isWellFormed = true ∧ (m : ℚ) * (2 : ℚ) ^ e = (N : ℚ) := by
  by_cases h0 : N = 0
  · subst h0
    refine ⟨0, -1074, rfl, ?_, by simp⟩
    rw [wellFormed_iff]
    exact ⟨by norm_num, by norm_num, by norm_num, Or.inr rfl⟩
  · have hpos : 0 < N := Nat.pos_of_ne_zero h0
    obtain ⟨hj1, hj2⟩ := log2_spec N hpos
    generalize Float64.log2 N = j at hj1 hj2
    have hj : j ≤ 52 := by
      have : 2 ^ j < 2 ^ 53 := lt_of_le_of_lt hj1 hN
      have := (Nat.pow_lt_pow_iff_right (by norm_num : 1 < 2)).mp this
      omega
    have hsplit : 2 ^ j * 2 ^ (52 - j) = 2 ^ 52 := by
      rw [← pow_add]
      congr 1
      omega
    have hsplit2 : 2 ^ (j + 1) * 2 ^ (52 - j) = 2 ^ 53 := by
      rw [← pow_add]
      congr 1
      omega
    have hp : 0 < 2 ^ (52 - j) := by positivity
    have hlo : 2 ^ 52 ≤ N * 2 ^ (52 - j) := by
      rw [← hsplit]
      exact Nat.mul_le_mul_right _ hj1
    have hhi : N * 2 ^ (52 - j) < 2 ^ 53 := by
      rw [← hsplit2]
      exact Nat.mul_lt_mul_of_pos_right hj2 hp
    have hval : ((N * 2 ^ (52 - j) : Nat) : ℚ) * (2 : ℚ) ^ ((j : Int) - 52) = (N : ℚ) := by
      push_cast
      rw [mul_assoc, ← zpow_natCast, ← zpow_add₀ (by norm_num : (2 : ℚ) ≠ 0)]
      have : (((52 - j : Nat) : Int) + ((j : Int) - 52)) = 0 := by omega
      rw [this]
      simp
    have hwf : (Float64.Finite s (N * 2 ^ (52 - j)) ((j : Int) - 52)).isWellFormed = true := by
      rw [wellFormed_iff]
      refine ⟨hhi, by omega, by omega, Or.inl hlo⟩
    refine ⟨N * 2 ^ (52 - j), (j : Int) - 52, ?_, hwf, hval⟩
    apply roundNearestEven_exact s N 1 _ _ (by norm_num) hwf
    rw [hval]
    simp

theorem Round_unfold (s : Bool) (m : Nat) (e : Int) :
    Float64.Round (Float64.Finite s m e) =
      if 0 ≤ e then Float64.roundNearestEven s (m * Float64.pow2 e) 1
      else Float64.roundNearestEven s
        ((m + Float64.pow2 (-e - 1)) / Float64.pow2 (-e)) 1 := rfl

theorem Round_of_integer (s : Bool) (m : Nat) (e : Int)
    (hwf : (Float64.Finite s m e).isWellFormed = true) (n : Nat)
    (hint : (m : ℚ) * (2 : ℚ) ^ e = (n : ℚ)) :
    Float64.Round (Float64.Finite s m e) = Float64.Finite s m e := by
  rw [Round_unfold]
  by_cases he : 0 ≤ e
  · rw [if_pos he]
    apply roundNearestEven_exact s _ _ m e (by norm_num) hwf
    push_cast
    rw [pow2_of_nonneg e he]
    simp
  · rw [if_neg he]
    have he' : e < 0 := by omega
    have hD := pow2_succ e he'
    have hP : 0 < Float64.pow2 (-e - 1) := pow2_pos _
    have hm : m = n * Float64.pow2 (-e) := by
      have hq : (m : ℚ) = ((n * Float64.pow2 (-e) : Nat) : ℚ) := by
        push_cast
        rw [← hint, mul_assoc, zpow_of_neg e he'.le, mul_one]
      exact_mod_cast hq
    have hN : (m + Float64.pow2 (-e - 1)) / Float64.pow2 (-e) = n := by
      apply Nat.div_eq_of_lt_le
      · rw [hm]; omega
      · rw [hm, hD]
        have : (n + 1) * (2 * Float64.pow2 (-e - 1)) =
            n * (2 * Float64.pow2 (-e - 1)) + 2 * Float64.pow2 (-e - 1) := by ring
        rw [this]
        omega
    rw [hN]
    apply roundNearestEven_exact s n 1 m e (by norm_num) hwf
    rw [hint]
    simp

theorem Round_spec (s : Bool) (m : Nat) (e : Int)
    (hwf : (Float64.Finite s m e).isWellFormed = true) :
    ∃ (m' : Nat) (e' : Int),
      Float64.Round (Float64.Finite s m e) = Float64.Finite s m' e' ∧
      (Float64.Finite s m' e').isWellFormed = true ∧
      (m' : ℚ) * (2 : ℚ) ^ e' = ((⌊(m : ℚ) * (2 : ℚ) ^ e + 1 / 2⌋ : Int) : ℚ) := by
  by_cases he : 0 ≤ e
  · have hint : (m : ℚ) * (2 : ℚ) ^ e = ((m * Float64.pow2 e : Nat) : ℚ) := by
      push_cast
      rw [pow2_of_nonneg e he]
    refine ⟨m, e, Round_of_integer s m e hwf _ hint, hwf, ?_⟩
    rw [hint]
    have hfl : ⌊((m * Float64.pow2 e : Nat) : ℚ) + 1 / 2⌋ = ((m * Float64.pow2 e : Nat) : Int) := by
      rw [Int.floor_eq_iff]
      push_cast
      constructor <;> linarith
    rw [hfl]
    push_cast
    rfl
  · have he' : e < 0 := by omega
    obtain ⟨hm, _, _, _⟩ := (wellFormed_iff s m e).mp hwf
    have hD := pow2_succ e he'
    have hP : 0 < Float64.pow2 (-e - 1) := pow2_pos _
    have hDpos : 0 < Float64.pow2 (-e) := pow2_pos _
    have hlo : (m + Float64.pow2 (-e - 1)) / Float64.pow2 (-e) * Float64.pow2 (-e) ≤
        m + Float64.pow2 (-e - 1) := Nat.div_mul_le_self _ _
    have hhi : m + Float64.pow2 (-e - 1) <
        Float64.pow2 (-e) * ((m + Float64.pow2 (-e - 1)) / Float64.pow2 (-e) + 1) :=
      Nat.lt_mul_div_succ _ hDpos
    generalize hNdef : (m + Float64.pow2 (-e - 1)) / Float64.pow2 (-e) = N at hlo hhi
    have hN : N < 2 ^ 53 := by
      by_contra hge
      have h1 : 2 ^ 53 * Float64.pow2 (-e) ≤ N * Float64.pow2 (-e) :=
        Nat.mul_le_mul_right _ (by omega)
      rw [hD] at h1 hlo
      have h2 : 2 ^ 53 * (2 * Float64.pow2 (-e - 1)) =
          2 ^ 53 * Float64.pow2 (-e - 1) + 2 ^ 53 * Float64.pow2 (-e - 1) := by ring
      have h3 : Float64.pow2 (-e - 1) ≤ 2 ^ 53 * Float64.pow2 (-e - 1) :=
        Nat.le_mul_of_pos_left _ (by norm_num)
      omega
    obtain ⟨m', e', hr, hwf', hval⟩ := roundNearestEven_nat s N hN
    refine ⟨m', e', ?_, hwf', ?_⟩
    · rw [Round_unfold, if_neg he, hNdef]
      exact hr
    · rw [hval]
      have hfl : ⌊(m : ℚ) * (2 : ℚ) ^ e + 1 / 2⌋ = (N : Int) := by
        have hDq : (0 : ℚ) < (Float64.pow2 (-e) : ℚ) := pow2_cast_pos _
        have hz := zpow_of_neg e he'.le
        have h2e : (2 : ℚ) ^ e = 1 / (Float64.pow2 (-e) : ℚ) := by
          rw [eq_div_iff hDq.ne']
          exact hz
        have hDq2 : (Float64.pow2 (-e) : ℚ) = 2 * (Float64.pow2 (-e - 1) : ℚ) := by
          exact_mod_cast hD
        have hy : (m : ℚ) * (2 : ℚ) ^ e + 1 / 2 =
            ((m : ℚ) + (Float64.pow2 (-e - 1) : ℚ)) / (Float64.pow2 (-e) : ℚ) := by
          rw [h2e, hDq2]
          have : (Float64.pow2 (-e - 1) : ℚ) ≠ 0 := by
            have : (0 : ℚ) < (Float64.pow2 (-e - 1) : ℚ) := pow2_cast_pos _
            exact this.ne'
          field_simp
          ring
        have hloq : (N : ℚ) * (Float64.pow2 (-e) : ℚ) ≤
            (m : ℚ) + (Float64.pow2 (-e - 1) : ℚ) := by exact_mod_cast hlo
        have hhiq : (m : ℚ) + (Float64.pow2 (-e - 1) : ℚ) <
            (Float64.pow2 (-e) : ℚ) * ((N : ℚ) + 1) := by exact_mod_cast hhi
        rw [Int.floor_eq_iff, hy]
        push_cast
        constructor
        · rw [le_div_iff₀ hDq]
          exact hloq
        · rw [div_lt_iff₀ hDq]
          linarith
      rw [hfl]
      push_cast
      rfl

theorem roundHalfAway_signed (s : Bool) (v : ℚ) (hv : 0 ≤ v) :
    roundHalfAway ((if s then -1 else 1) * v) =
      (if s then -1 else 1) * ⌊v + 1 / 2⌋ := by
  unfold roundHalfAway
  cases s with
  | false => simp [hv]
  | true =>
    simp only [if_true]
    by_cases h0 : v = 0
    · subst h0
      norm_num
    · have hneg : ¬ (0 : ℚ) ≤ -1 * v := by
        have : 0 < v := lt_of_le_of_ne hv (Ne.symm h0)
        linarith
      rw [if_neg hneg]
      have : -(-1 * v) + 1 / 2 = v + 1 / 2 := by ring
      rw [this]
      ring

theorem roundAt_wellFormed (s : Bool) (num den : Nat) (hnum : 0 < num) (hden : 0 < den) :
    (Float64.roundAt s num den
      (max (Float64.ratioLog2 num den - 52) (-1074))).isWellFormed = true := by
  obtain ⟨hl1, hl2⟩ := ratioLog2_spec num den hnum hden
  generalize Float64.ratioLog2 num den = lg at hl1 hl2
  have he1 : lg - 52 ≤ max (lg - 52) (-1074) := le_max_left _ _
  have he2 : (-1074 : Int) ≤ max (lg - 52) (-1074) := le_max_right _ _
  have he3 : max (lg - 52) (-1074) = -1074 ∨ max (lg - 52) (-1074) = lg - 52 := by
    rcases max_choice (lg - 52) (-1074) with h | h
    · exact Or.inr h
    · exact Or.inl h
  generalize max (lg - 52) (-1074) = e at he1 he2 he3
  have hdq : (0 : ℚ) < den := by exact_mod_cast hden
  have h2 : (2 : ℚ) ≠ 0 := by norm_num
  have hP : (0 : ℚ) < (Float64.pow2 (-e) : ℚ) := pow2_cast_pos _
  have h2e : (0 : ℚ) < (2 : ℚ) ^ e := by positivity
  have hd : 0 < den * Float64.pow2 e := Nat.mul_pos hden (pow2_pos e)
  have hdcast : ((den * Float64.pow2 e : Nat) : ℚ) =
      (den : ℚ) * (2 : ℚ) ^ e * (Float64.pow2 (-e) : ℚ) := by
    push_cast
    rw [pow2_cast e]
    ring
  have hncast : ((num * Float64.pow2 (-e) : Nat) : ℚ) =
      (num : ℚ) * (Float64.pow2 (-e) : ℚ) := by push_cast; rfl
  have hup : (num : ℚ) < (2 : ℚ) ^ (53 : Int) * ((den : ℚ) * (2 : ℚ) ^ e) := by
    have h1 : (2 : ℚ) ^ (lg + 1) ≤ (2 : ℚ) ^ (53 + e) :=
      zpow_le_zpow_right₀ (by norm_num) (by omega)
    have h3 : (num : ℚ) / den < (2 : ℚ) ^ (53 + e) := lt_of_lt_of_le hl2 h1
    rw [div_lt_iff₀ hdq, zpow_add₀ h2] at h3
    linarith
  have hq53 : num * Float64.pow2 (-e) / (den * Float64.pow2 e) < 2 ^ 53 := by
    rw [Nat.div_lt_iff_lt_mul hd]
    have hq : ((num * Float64.pow2 (-e) : Nat) : ℚ) <
        ((2 ^ 53 * (den * Float64.pow2 e) : Nat) : ℚ) := by
      rw [hncast]
      push_cast
      rw [pow2_cast e]
      have h53 : (9007199254740992 : ℚ) = (2 : ℚ) ^ (53 : Int) := by norm_num
      have := mul_lt_mul_of_pos_right hup hP
      rw [h53]
      linarith
    exact_mod_cast hq
  have hq52 : e ≠ -1074 → 2 ^ 52 ≤ num * Float64.pow2 (-e) / (den * Float64.pow2 e) := by
    intro hne
    have hee : e = lg - 52 := by
      rcases he3 with h | h
      · exact absurd h hne
      · exact h
    rw [Nat.le_div_iff_mul_le hd]
    have h1 : (2 : ℚ) ^ (52 + e) ≤ (num : ℚ) / den := by
      have : 52 + e = lg := by omega
      rw [this]
      exact hl1
    rw [le_div_iff₀ hdq, zpow_add₀ h2] at h1
    have hq : ((2 ^ 52 * (den * Float64.pow2 e) : Nat) : ℚ) ≤
        ((num * Float64.pow2 (-e) : Nat) : ℚ) := by
      rw [hncast]
      push_cast
      rw [pow2_cast e]
      have h52 : (4503599627370496 : ℚ) = (2 : ℚ) ^ (52 : Int) := by norm_num
      have := mul_le_mul_of_nonneg_right h1 hP.le
      rw [h52]
      linarith
    exact_mod_cast hq
  unfold Float64.roundAt
  generalize num * Float64.pow2 (-e) / (den * Float64.pow2 e) = q at hq53 hq52
  generalize hm : (if den * Float64.pow2 e <
        2 * (num * Float64.pow2 (-e) % (den * Float64.pow2 e)) ∨
      (2 * (num * Float64.pow2 (-e) % (den * Float64.pow2 e)) = den * Float64.pow2 e ∧
        q % 2 = 1) then q + 1 else q) = m'
  have hm1 : q ≤ m' := by
    rw [← hm]
    split <;> omega
  have hm2 : m' ≤ q + 1 := by
    rw [← hm]
    split <;> omega
  by_cases h53 : m' = 2 ^ 53
  · rw [if_pos h53]
    by_cases hov : 971 < e + 1
    · rw [if_pos hov]
      rfl
    · rw [if_neg hov, wellFormed_iff]
      exact ⟨by norm_num, by omega, by omega, Or.inl (Nat.le_refl _)⟩
  · rw [if_neg h53]
    by_cases hov : 971 < e
    · rw [if_pos hov]
      rfl
    · rw [if_neg hov, wellFormed_iff]
      refine ⟨by omega, he2, by omega, ?_⟩
      by_cases hsub : e = -1074
      · exact Or.inr hsub
      · exact Or.inl (le_trans (hq52 hsub) hm1)

theorem roundNearestEven_wellFormed (s : Bool) (num den : Nat) (hden : 0 < den) :
    (Float64.roundNearestEven s num den).isWellFormed = true := by
  rw [roundNearestEven_unfold]
  by_cases hnum : num = 0
  · rw [if_pos hnum, wellFormed_iff]
    exact ⟨by norm_num, by norm_num, by norm_num, Or.inr rfl⟩
  · rw [if_neg hnum]
    exact roundAt_wellFormed s num den (Nat.pos_of_ne_zero hnum) hden

theorem mul_wellFormed (a b : Float64) : (Float64.mul a b).isWellFormed = true := by
  cases a with
  | NaN => cases b <;> rfl
  | Inf s =>
    cases b with
    | NaN => rfl
    | Inf t => rfl
    | Finite t n f =>
      show (if n = 0 then Float64.NaN else Float64.Inf (xor s t)).isWellFormed = true
      split <;> rfl
  | Finite s m e =>
    cases b with
    | NaN => rfl
    | Inf t =>
      show (if m = 0 then Float64.NaN else Float64.Inf (xor s t)).isWellFormed = true
      split <;> rfl
    | Finite t n f => exact roundNearestEven_wellFormed _ _ _ (pow2_pos _)

theorem Pow10_zero : Float64.Pow10 0 = Float64.one := by decide!

theorem mul_one_eq (z : Float64) (hz : z.isWellFormed = true) :
    Float64.mul z Float64.one = z := by
  cases z with
  | NaN => rfl
  | Inf s => cases s <;> rfl
  | Finite s m e => exact mul_one_of_wellFormed s m e hz

theorem div_one_eq (z : Float64) (hz : z.isWellFormed = true) :
    Float64.div z Float64.one = z := by
  cases z with
  | NaN => rfl
  | Inf s => cases s <;> rfl
  | Finite s m e => exact div_one_of_wellFormed s m e hz

theorem floor_add_half_nonneg (v : ℚ) (hv : 0 ≤ v) : 0 ≤ ⌊v + 1 / 2⌋ := by
  apply Int.floor_nonneg.mpr
  linarith

/-- The function `math.Round` on a value of the type: the result is a value of
the type that `math.Round` leaves as it is. -/
theorem Round_fixed (y : Float64) (hy : y.isWellFormed = true) :
    (Float64.Round y).isWellFormed = true ∧
      Float64.Round (Float64.Round y) = Float64.Round y := by
  cases y with
  | NaN => exact ⟨rfl, rfl⟩
  | Inf s => exact ⟨rfl, rfl⟩
  | Finite s m e =>
    obtain ⟨m', e', hr, hwf, hval⟩ := Round_spec s m e hy
    have hv : (0 : ℚ) ≤ (m : ℚ) * (2 : ℚ) ^ e := by positivity
    obtain ⟨n, hn⟩ := Int.eq_ofNat_of_zero_le (floor_add_half_nonneg _ hv)
    rw [hr]
    refine ⟨hwf, Round_of_integer s m' e' hwf n ?_⟩
    rw [hval, hn]
    rfl

/-- The function `math.Round` on a finite value of the type: the result is
finite and denotes the integer nearest to the argument, halves away from
zero. -/
theorem Round_nearest (y : Float64) (hy : y.isWellFormed = true)
    (hfin : y.isFinite = true) :
    (Float64.Round y).isFinite = true ∧
      (Float64.Round y).toRat = ((roundHalfAway y.toRat : Int) : ℚ) ∧
      |(Float64.Round y).toRat - y.toRat| ≤ 1 / 2 := by
  cases y with
  | NaN => exact Bool.noConfusion hfin
  | Inf s => exact Bool.noConfusion hfin
  | Finite s m e =>
    obtain ⟨m', e', hr, _, hval⟩ := Round_spec s m e hy
    have hv : (0 : ℚ) ≤ (m : ℚ) * (2 : ℚ) ^ e := by positivity
    have h1 : ((⌊(m : ℚ) * (2 : ℚ) ^ e + 1 / 2⌋ : Int) : ℚ) ≤ (m : ℚ) * (2 : ℚ) ^ e + 1 / 2 :=
      Int.floor_le _
    have h2 : (m : ℚ) * (2 : ℚ) ^ e + 1 / 2 <
        ((⌊(m : ℚ) * (2 : ℚ) ^ e + 1 / 2⌋ : Int) : ℚ) + 1 := Int.lt_floor_add_one _
    have hx : (Float64.Finite s m e).toRat =
        (if s then -1 else 1) * ((m : ℚ) * (2 : ℚ) ^ e) := by
      show (if s then -1 else 1) * (m : ℚ) * (2 : ℚ) ^ e = _
      ring
    have hz : (Float64.Finite s m' e').toRat =
        (if s then -1 else 1) * ((⌊(m : ℚ) * (2 : ℚ) ^ e + 1 / 2⌋ : Int) : ℚ) := by
      show (if s then -1 else 1) * (m' : ℚ) * (2 : ℚ) ^ e' = _
      rw [mul_assoc, hval]
    rw [hr, hx, hz, roundHalfAway_signed s _ hv]
    refine ⟨rfl, ?_, ?_⟩
    · cases s <;> simp
    · cases s
      · simp only [Bool.false_eq_true, if_false, one_mul]
        rw [abs_le]
        constructor <;> linarith
      · simp only [if_true]
        rw [abs_le]
        constructor <;> linarith

/-- Method `roundToPrecision` with no decimal places is `math.Round` after the
conversion of the argument to a value of the type. -/
theorem roundToPrecision_zero (c : Calculator) (x : Float64) (hp : c.MaxDecimalPlaces = 0) :
    c.roundToPrecision ieee x = Float64.Round (Float64.mul x Float64.one) := by
  show Float64.div (Float64.Round (Float64.mul x (Float64.Pow10 c.MaxDecimalPlaces)))
    (Float64.Pow10 c.MaxDecimalPlaces) = _
  rw [hp, Pow10_zero]
  exact div_one_eq _ (Round_fixed _ (mul_wellFormed x Float64.one)).1

/-- C30, the code at an input the claim covers: with the ten decimal places of
`cmd/server/main.go`, `roundToPrecision` maps the float64 value
`6862739498982117 * 2^-34` (399464.01369421027) to `6862739498982118 * 2^-34`
and maps that value to `6862739498982119 * 2^-34`, so rounding the rounded
value changes it; with 400 decimal places `roundToPrecision(1)` is a NaN. -/
theorem roundToPrecision_not_idempotent :
    (Float64.Finite false 6862739498982117 (-34)).isWellFormed = true ∧
    serverCalculator.roundToPrecision ieee (Float64.Finite false 6862739498982117 (-34)) =
      Float64.Finite false 6862739498982118 (-34) ∧
    serverCalculator.roundToPrecision ieee (Float64.Finite false 6862739498982118 (-34)) =
      Float64.Finite false 6862739498982119 (-34) ∧
    serverCalculator.roundToPrecision ieee
        (serverCalculator.roundToPrecision ieee
          (Float64.Finite false 6862739498982117 (-34))) ≠
      serverCalculator.roundToPrecision ieee (Float64.Finite false 6862739498982117 (-34)) ∧
    (NewCalculator 10 400 true).roundToPrecision ieee Float64.one = Float64.NaN := by
  decide!

/-- C30, amended: in float64 arithmetic, for every number of decimal places,
when the product `x * 10^places` is finite the value `math.Round` makes of it
inside `roundToPrecision` is finite and is the integer nearest to that
product, halves away from zero, so the two differ by at most 1/2; and with
`MaxDecimalPlaces = 0`, `roundToPrecision` is idempotent on every value and
maps every finite float64 `x` to the integer nearest to `x`, halves away from
zero, which differs from `x` by at most 1/2. -/
theorem roundToPrecision_nearest_integer (c : Calculator) (x : Float64) :
    ((Float64.mul x (Float64.Pow10 c.MaxDecimalPlaces)).isFinite = true →
      c.roundToPrecision ieee x =
        Float64.div (Float64.Round (Float64.mul x (Float64.Pow10 c.MaxDecimalPlaces)))
          (Float64.Pow10 c.MaxDecimalPlaces) ∧
      (Float64.Round (Float64.mul x (Float64.Pow10 c.MaxDecimalPlaces))).isFinite = true ∧
      (Float64.Round (Float64.mul x (Float64.Pow10 c.MaxDecimalPlaces))).toRat =
        ((roundHalfAway (Float64.mul x (Float64.Pow10 c.MaxDecimalPlaces)).toRat : Int) : ℚ) ∧
      |(Float64.Round (Float64.mul x (Float64.Pow10 c.MaxDecimalPlaces))).toRat -
        (Float64.mul x (Float64.Pow10 c.MaxDecimalPlaces)).toRat| ≤ 1 / 2) ∧
    (c.MaxDecimalPlaces = 0 →
      c.roundToPrecision ieee (c.roundToPrecision ieee x) = c.roundToPrecision ieee x ∧
      (x.isWellFormed = true → x.isFinite = true →
        (c.roundToPrecision ieee x).isFinite = true ∧
        (c.roundToPrecision ieee x).toRat = ((roundHalfAway x.toRat : Int) : ℚ) ∧
        |(c.roundToPrecision ieee x).toRat - x.toRat| ≤ 1 / 2)) := by
  constructor
  · intro hfin
    exact ⟨rfl, Round_nearest _ (mul_wellFormed _ _) hfin⟩
  · intro hp
    constructor
    · obtain ⟨hwf, hfix⟩ := Round_fixed _ (mul_wellFormed x Float64.one)
      rw [roundToPrecision_zero c _ hp, roundToPrecision_zero c x hp, mul_one_eq _ hwf, hfix]
    · intro hx hfin
      rw [roundToPrecision_zero c x hp, mul_one_eq x hx]
      exact Round_nearest x hx hfin

/-- The amended C30 at concrete inputs: the first part at ten decimal places
and 399464.01369421027, the second at no decimal places and 2.5. -/
theorem roundToPrecision_nearest_integer_witness :
    (Float64.mul (Float64.Finite false 6862739498982117 (-34))
      (Float64.Pow10 serverCalculator.MaxDecimalPlaces)).isFinite = true ∧
    (NewCalculator 10 0 true).MaxDecimalPlaces = 0 ∧
    (Float64.Finite false 5629499534213120 (-51)).isWellFormed = true ∧
    (Float64.Finite false 5629499534213120 (-51)).isFinite = true ∧
    |(Float64.Round (Float64.mul (Float64.Finite false 6862739498982117 (-34))
        (Float64.Pow10 serverCalculator.MaxDecimalPlaces))).toRat -
      (Float64.mul (Float64.Finite false 6862739498982117 (-34))
        (Float64.Pow10 serverCalculator.MaxDecimalPlaces)).toRat| ≤ 1 / 2 ∧
    (NewCalculator 10 0 true).roundToPrecision ieee
        ((NewCalculator 10 0 true).roundToPrecision ieee
          (Float64.Finite false 5629499534213120 (-51))) =
      (NewCalculator 10 0 true).roundToPrecision ieee
        (Float64.Finite false 5629499534213120 (-51)) ∧
    ((NewCalculator 10 0 true).roundToPrecision ieee
        (Float64.Finite false 5629499534213120 (-51))).toRat =
      ((roundHalfAway (Float64.Finite false 5629499534213120 (-51)).toRat : Int) : ℚ) :=
  ⟨by decide!, rfl, by decide!, rfl,
    ((roundToPrecision_nearest_integer serverCalculator
      (Float64.Finite false 6862739498982117 (-34))).1 (by decide!)).2.2.2,
    ((roundToPrecision_nearest_integer (NewCalculator 10 0 true)
      (Float64.Finite false 5629499534213120 (-51))).2 rfl).1,
    (((roundToPrecision_nearest_integer (NewCalculator 10 0 true)
      (Float64.Finite false 5629499534213120 (-51))).2 rfl).2 (by decide!) rfl).2.1⟩

end Calc

end LlamaCalc
